import Mathlib

/-!
# Clarity-Health client script (`src/script.js`): a shallow embedding

The browser script is embedded as pure functions over explicit state.

* JavaScript strings are lists of characters (`JsString`); the characters the
  script searches for are all ASCII, so code units and code points agree on
  them, and `jsLength` counts code units.
* JavaScript values that travel through JSON are the inductive `JsValue`
  (numbers are restricted to integers).
* Platform services (the `fetch` transport, `JSON.parse`, `Date.parse`, the
  viewer's time zone, the page's elements) are explicit parameters or fields
  of the state `World`; asynchronous functions are split at their `await`.
-/

namespace ClarityHealth

/-! ## JavaScript strings and values -/

/-- A JavaScript string, as the list of its characters. -/
abbrev JsString := List Char

/-- The double-quote character. -/
def dquote : Char := Char.ofNat 34

/-- The apostrophe character. -/
def apostrophe : Char := Char.ofNat 39

/-- JavaScript values as they reach the script: `undefined` (a missing
property), and the values `JSON.parse` can produce, with numbers restricted
to integers. -/
inductive JsValue where
  | undefined
  | null
  | bool (b : Bool)
  | num (n : Int)
  | str (s : JsString)
  | arr (items : List JsValue)
  | obj (fields : List (JsString × JsValue))
  deriving Repr

mutual
/-- The text of the coercion `String(v)`, which is also what a template literal
applies to an interpolated value, when the coercion completes (`coercible`
below says when it does). The text of a number is its decimal digits, which is
what JavaScript prints for an integer below `2 ^ 53` in magnitude. -/
def JsValue.toStr : JsValue → JsString
  | .undefined => "undefined".toList
  | .null => "null".toList
  | .bool true => "true".toList
  | .bool false => "false".toList
  | .num n => (toString n).toList
  | .str s => s
  | .arr items => JsValue.joinStr items
  | .obj _ => "[object Object]".toList
termination_by structural v => v
/-- The coercion `Array.prototype.join(",")` that `String` applies to an array:
`null` and `undefined` elements contribute the empty string. -/
def JsValue.joinStr : List JsValue → JsString
  | [] => []
  | x :: rest =>
    (match x with
      | .undefined => []
      | .null => []
      | v => JsValue.toStr v) ++
    (match rest with
      | [] => []
      | _ :: _ => ',' :: JsValue.joinStr rest)
termination_by structural l => l
end

mutual
/-- Whether the coercion `String(v)` (and the `ToPrimitive` step of
`new Date(v)`) completes. A parsed object with an own property `toString`
hides `Object.prototype.toString` behind a value that cannot be called, and
the coercion throws a `TypeError`; an array is coerced element by element. -/
def JsValue.coercible : JsValue → Bool
  | .undefined => true
  | .null => true
  | .bool _ => true
  | .num _ => true
  | .str _ => true
  | .arr items => JsValue.allCoercible items
  | .obj fields => !fields.any (fun kv => decide (kv.1 = "toString".toList))
termination_by structural v => v
/-- Every element of an array can be coerced. -/
def JsValue.allCoercible : List JsValue → Bool
  | [] => true
  | x :: rest => JsValue.coercible x && JsValue.allCoercible rest
termination_by structural l => l
end

/-- A primitive value whose text `toStr` gives exactly: `undefined`, `null`, a
boolean, a string, or an integer below `2 ^ 53` in magnitude. -/
def JsValue.plain : JsValue → Bool
  | .undefined => true
  | .null => true
  | .bool _ => true
  | .num n => decide (n.natAbs < 2 ^ 53)
  | .str _ => true
  | .arr _ => false
  | .obj _ => false

/-- JavaScript truthiness (`if (v)`, `v || w`, `!v`). -/
def JsValue.truthy : JsValue → Bool
  | .undefined => false
  | .null => false
  | .bool b => b
  | .num n => n != 0
  | .str s => !s.isEmpty
  | .arr _ => true
  | .obj _ => true

/-- The scan of `String.prototype.replaceAll` for a non-empty search string:
`skip` counts the characters of the current match still to be dropped. -/
def replaceAllFrom (pat rep : JsString) : Nat → JsString → JsString
  | _, [] => []
  | skip + 1, _ :: cs => replaceAllFrom pat rep skip cs
  | 0, c :: cs =>
    if pat.isPrefixOf (c :: cs) then rep ++ replaceAllFrom pat rep (pat.length - 1) cs
    else c :: replaceAllFrom pat rep 0 cs

/-- `s.replaceAll(pat, rep)` for a string pattern and a replacement without `$`
patterns: every non-overlapping occurrence, left to right. The empty pattern
matches between all characters. -/
def replaceAll (s pat rep : JsString) : JsString :=
  match pat with
  | [] => rep ++ s.flatMap (fun c => c :: rep)
  | _ :: _ => replaceAllFrom pat rep 0 s

/-! ## `escapeHtml` (script.js 422-430) -/

/-- `escapeHtml(unsafe)`: the empty string for `null` and `undefined`, otherwise
five successive `replaceAll` calls on `String(unsafe)`. This is the text the
call returns when `String(unsafe)` completes; the callers below test
`coercible` before they use it. -/
def escapeHtml (v : JsValue) : JsString :=
  match v with
  | .null => []
  | .undefined => []
  | v =>
    replaceAll
      (replaceAll
        (replaceAll
          (replaceAll
            (replaceAll v.toStr ['&'] "&amp;".toList)
            ['<'] "&lt;".toList)
          ['>'] "&gt;".toList)
        [dquote] "&quot;".toList)
      [apostrophe] "&#039;".toList

/-- The per-character escaping the specification describes: the five special
characters become their entities, every other character is kept. -/
def escapeChar (c : Char) : JsString :=
  if c = '&' then "&amp;".toList
  else if c = '<' then "&lt;".toList
  else if c = '>' then "&gt;".toList
  else if c = dquote then "&quot;".toList
  else if c = apostrophe then "&#039;".toList
  else [c]

/-! ## Numbers, `split` and the `Date` object -/

/-- A JavaScript number of the integer fragment; `none` is `NaN`. -/
abbrev JsNum := Option Int

/-- Errors a JavaScript operation can throw. -/
inductive JsError where
  | typeError
  | syntaxError
  | other
  deriving DecidableEq, Repr

/-- `s.split(sep)` for a one-character separator. -/
def splitChar (sep : Char) : JsString → List JsString
  | [] => [[]]
  | c :: cs =>
    if c = sep then [] :: splitChar sep cs
    else
      match splitChar sep cs with
      | [] => [[c]]
      | p :: ps => (c :: p) :: ps

/-- The white space and line terminator characters `String.prototype.trim`
removes. -/
def isJsWhitespace (c : Char) : Bool :=
  [9, 10, 11, 12, 13, 32, 160, 5760, 8192, 8193, 8194, 8195, 8196, 8197, 8198, 8199, 8200,
    8201, 8202, 8232, 8233, 8239, 8287, 12288, 65279].contains c.toNat

/-- `s.trim()`. -/
def trim (s : JsString) : JsString :=
  ((s.dropWhile isJsWhitespace).reverse.dropWhile isJsWhitespace).reverse

/-- The value of a string of decimal digits. -/
def digitsValue (ds : JsString) : Nat :=
  ds.foldl (fun acc c => 10 * acc + (c.toNat - 48)) 0

/-- A non-empty string of ASCII decimal digits. -/
def isDigits (ds : JsString) : Bool := !ds.isEmpty && ds.all Char.isDigit

/-- `Number(s)` on the integer fragment: surrounding white space is dropped,
the empty string is `0`, an optionally signed string of decimal digits is its
value, any other text is `NaN`. Fractions, exponents, radix prefixes and
`Infinity` literals lie outside this fragment. -/
def stringToNumber (s : JsString) : JsNum :=
  match trim s with
  | [] => some 0
  | '+' :: ds => if isDigits ds then some (digitsValue ds) else none
  | '-' :: ds => if isDigits ds then some (-(digitsValue ds : Int)) else none
  | ds => if isDigits ds then some (digitsValue ds) else none

def msPerDay : Int := 86400000

def msPerHour : Int := 3600000

def msPerMinute : Int := 60000

/-- ECMA-262 `DayFromYear`: the day number of 1 January of year `y`. -/
def dayFromYear (y : Int) : Int :=
  365 * (y - 1970) + (y - 1969) / 4 - (y - 1901) / 100 + (y - 1601) / 400

/-- ECMA-262 `InLeapYear`, as a test on the year. -/
def inLeapYear (y : Int) : Bool :=
  (y % 4 == 0 && y % 100 != 0) || y % 400 == 0

/-- Days of the year before the first day of month `m` (0 is January). -/
def daysBeforeMonth (leap : Bool) (m : Int) : Int :=
  ([0, 31, 59, 90, 120, 151, 181, 212, 243, 273, 304, 334].getD m.toNat 0 : Int)
    + (if leap && decide (2 ≤ m) then 1 else 0)

/-- ECMA-262 `MakeDay` on integers: months beyond 0..11 carry into the year,
days beyond the month carry into the following days. -/
def makeDay (year month date : Int) : Int :=
  let ym := year + month / 12
  let mn := month % 12
  dayFromYear ym + daysBeforeMonth (inLeapYear ym) mn + date - 1

/-- ECMA-262 `MakeTime`. -/
def makeTime (hour min sec ms : Int) : Int :=
  hour * msPerHour + min * msPerMinute + sec * 1000 + ms

/-- ECMA-262 `MakeDate`. -/
def makeDate (day time : Int) : Int := day * msPerDay + time

/-- ECMA-262 `MakeFullYear`: years 0..99 mean 1900..1999. -/
def makeFullYear (y : Int) : Int := if 0 ≤ y ∧ y ≤ 99 then 1900 + y else y

/-- ECMA-262 `TimeClip`: time values beyond 8.64e15 ms are `NaN`. -/
def timeClip (t : Int) : JsNum :=
  if -8640000000000000 ≤ t ∧ t ≤ 8640000000000000 then some t else none

/-- What the browser supplies to the date code: the viewer's time zone as
ECMA-262 `LocalTZA(t, isUTC)` (the offset in ms, for a UTC time value when
`isUTC` and for a local one otherwise), `Date.parse`, and the `pt-BR`
rendering of the calendar date of a local time value; and to the rest of the
script `JSON.parse`, the layout of the chat feed and the chart library. -/
structure Platform where
  localTZA : Int → Bool → Int
  /-- A zone's offset from UTC is less than a day. -/
  localTZA_bound : ∀ t isUTC, -msPerDay < localTZA t isUTC ∧ localTZA t isUTC < msPerDay
  dateParse : JsString → JsNum
  localeDate : Int → JsString
  /-- `JSON.parse`, which throws a `SyntaxError` on text that is not JSON. -/
  jsonParse : JsString → Except JsError JsValue
  /-- The layout height (`scrollHeight`) of a feed with the given markup. -/
  scrollHeight : JsString → Nat
  /-- Whether the `Chart` constructor throws for the instance with this number. -/
  chartFails : Nat → Bool

/-- ECMA-262 `UTC(t)`: the time value of the local time `t`. -/
def utc (P : Platform) (t : Int) : Int := t - P.localTZA t false

/-- ECMA-262 `LocalTime(t)`: the local time of the time value `t`. -/
def localTime (P : Platform) (t : Int) : Int := t + P.localTZA t true

/-- The local time value that `new Date(year, month, day, hour, minute)` builds
from its components before it is converted to a time value. -/
def wallClock (year month day hour minute : Int) : Int :=
  makeDate (makeDay (makeFullYear year) month day) (makeTime hour minute 0 0)

/-- `new Date(year, month, day, hour, minute)`: the time value of the object,
`NaN` when a component is `NaN` or the result is out of range. -/
def newDateLocal (P : Platform) (year month day hour minute : JsNum) : JsNum :=
  match year, month, day, hour, minute with
  | some y, some m, some d, some h, some mi => timeClip (utc P (wallClock y m d h mi))
  | _, _, _, _, _ => none

/-- ECMA-262 `HourFromTime`. -/
def hourFromTime (t : Int) : Int := (t / msPerHour) % 24

/-- ECMA-262 `MinFromTime`. -/
def minFromTime (t : Int) : Int := (t / msPerMinute) % 60

/-- The decimal digit character of `n < 10`. -/
def digitChar (n : Nat) : Char := Char.ofNat (48 + n)

/-- A field rendered with `2-digit`. -/
def twoDigits (n : Int) : JsString := [digitChar (n.toNat / 10), digitChar (n.toNat % 10)]

/-- `date.toLocaleDateString('pt-BR')`: `"Invalid Date"` for an invalid date,
never an exception. -/
def toLocaleDateString (P : Platform) (date : JsNum) : JsString :=
  match date with
  | none => "Invalid Date".toList
  | some tv => P.localeDate (localTime P tv)

/-- `date.toLocaleTimeString('pt-BR', { hour: '2-digit', minute: '2-digit' })`:
`HH:MM` on the 24-hour clock, `"Invalid Date"` for an invalid date. -/
def toLocaleTimeString (P : Platform) (date : JsNum) : JsString :=
  match date with
  | none => "Invalid Date".toList
  | some tv =>
    twoDigits (hourFromTime (localTime P tv)) ++ ':' :: twoDigits (minFromTime (localTime P tv))

/-- `s.length` in UTF-16 code units: a character beyond the Basic Multilingual
Plane counts as two. -/
def jsLength (s : JsString) : Nat :=
  (s.map (fun c => if c.toNat < 65536 then 1 else 2)).sum

/-- `s.endsWith(c)` for a one-character string. -/
def endsWithChar (s : JsString) (c : Char) : Bool := s.getLast? == some c

/-! ## `formatTimestamp` (script.js 29-57) -/

/-- The `try` block of `formatTimestamp` on a string. -/
def formatTimestampString (P : Platform) (s : JsString) : Except JsError JsString := do
  let date : JsNum ←
    if s.contains 'T' && decide (16 ≤ jsLength s) && decide (jsLength s ≤ 19)
        && !endsWithChar s 'Z' then
      match splitChar 'T' s with
      | datePart :: timePart :: _ =>
        let ymd := (splitChar '-' datePart).map stringToNumber
        let hm := (splitChar ':' timePart).map stringToNumber
        pure (newDateLocal P (ymd.getD 0 none) ((ymd.getD 1 none).map (· - 1))
          (ymd.getD 2 none) (hm.getD 0 none) (hm.getD 1 none))
      | _ => throw JsError.typeError
    else pure (P.dateParse s)
  pure (toLocaleDateString P date ++ ' ' :: toLocaleTimeString P date)

/-- The `try` block of `formatTimestamp` on any truthy value. A string runs the
code above. An array has `includes` and `length` but no `endsWith`, so the
call throws when the first three tests pass; otherwise `new Date` parses
`String(array)`, or throws when the array cannot be coerced. Every other value
has no `includes` method: the call throws. -/
def formatTimestampTry (P : Platform) (isoString : JsValue) : Except JsError JsString :=
  match isoString with
  | .str s => formatTimestampString P s
  | .arr items =>
    if items.any (fun x => match x with
        | .str ['T'] => true
        | _ => false) && decide (16 ≤ items.length) && decide (items.length ≤ 19) then
      throw JsError.typeError
    else if !(JsValue.arr items).coercible then throw JsError.typeError
    else
      let date := P.dateParse (JsValue.arr items).toStr
      pure (toLocaleDateString P date ++ ' ' :: toLocaleTimeString P date)
  | _ => throw JsError.typeError

/-- `formatTimestamp(isoString)`: the empty string for a falsy argument, the
formatted date when the `try` block completes, the argument itself when the
block throws. -/
def formatTimestamp (P : Platform) (isoString : JsValue) : JsValue :=
  if !isoString.truthy then .str []
  else
    match formatTimestampTry P isoString with
    | .ok text => .str text
    | .error _ => isoString

/-- A time zone with no transitions (UTC), no recognised `Date.parse` input
and a fixed date rendering: a platform to evaluate examples on. -/
def utcPlatform : Platform :=
  { localTZA := fun _ _ => 0
    localTZA_bound := fun _ _ => by simp [msPerDay]
    dateParse := fun _ => none
    localeDate := fun _ => "D".toList
    jsonParse := fun _ => .error JsError.syntaxError
    scrollHeight := fun html => html.length
    chartFails := fun _ => false }

/-- The zone America/Sao_Paulo around 4 November 2018, when clocks went from
00:00 (UTC-3) straight to 01:00 (UTC-2) at time value 1541300400000. A local
time in the skipped hour is read with the offset before the transition, as
ECMA-262 prescribes. -/
def saoPaulo2018 : Platform :=
  { localTZA := fun t isUTC =>
      if isUTC then (if t < 1541300400000 then -10800000 else -7200000)
      else (if t < 1541293200000 then -10800000 else -7200000)
    localTZA_bound := fun t isUTC => by
      cases isUTC <;> simp only [Bool.false_eq_true, if_false, if_true] <;>
        split_ifs <;> decide
    dateParse := fun _ => none
    localeDate := fun _ => "D".toList
    jsonParse := fun _ => .error JsError.syntaxError
    scrollHeight := fun html => html.length
    chartFails := fun _ => false }

/-- The wall-clock reading `t` exists in the viewer's zone: the offset in force
at the instant it denotes is the offset it was read with. -/
def WallClockExists (P : Platform) (t : Int) : Prop :=
  P.localTZA (utc P t) true = P.localTZA t false

instance (P : Platform) (t : Int) : Decidable (WallClockExists P t) := by
  unfold WallClockExists
  infer_instance

/-! ## `parseFloat` -/

/-- A number `parseFloat` returns: `NaN`, an infinity, or the double nearest to
`± mantissa × 10 ^ exponent`. -/
inductive ParsedFloat where
  | nan
  | infinity (negative : Bool)
  | decimal (negative : Bool) (mantissa : Nat) (exponent : Int)
  deriving DecidableEq, Repr

/-- Whether the double nearest to `mantissa × 10 ^ exponent` is zero: the
magnitude is at most `2 ^ -1075`, half the smallest positive double. -/
def roundsToZero (mantissa : Nat) (exponent : Int) : Bool :=
  if 0 ≤ exponent then mantissa == 0
  else decide (mantissa * 2 ^ 1075 ≤ 10 ^ (-exponent).toNat)

/-- `isNaN(x)`. -/
def ParsedFloat.isNaN : ParsedFloat → Bool
  | .nan => true
  | _ => false

/-- `x < 0`: false for `NaN` and for both zeros. -/
def ParsedFloat.ltZero : ParsedFloat → Bool
  | .nan => false
  | .infinity negative => negative
  | .decimal negative mantissa exponent => negative && !roundsToZero mantissa exponent

/-- The exponent a literal's tail contributes: `e` or `E`, an optional sign and
at least one digit; any other tail is not part of the number. -/
def exponentOf (tail : JsString) : Int :=
  match tail with
  | c :: rest =>
    if c = 'e' ∨ c = 'E' then
      match rest with
      | '-' :: ds =>
        if (ds.takeWhile Char.isDigit).isEmpty then 0
        else -(digitsValue (ds.takeWhile Char.isDigit) : Int)
      | '+' :: ds => (digitsValue (ds.takeWhile Char.isDigit) : Int)
      | ds => (digitsValue (ds.takeWhile Char.isDigit) : Int)
    else 0
  | [] => 0

/-- `parseFloat(s)`: leading white space is skipped, then the longest prefix
that is a decimal literal (optional sign, `Infinity` or digits with an optional
fraction and exponent) is read; `NaN` when there is none. -/
def parseFloat (s : JsString) : ParsedFloat :=
  let t := s.dropWhile isJsWhitespace
  let negative : Bool :=
    match t with
    | '-' :: _ => true
    | _ => false
  let rest : JsString :=
    match t with
    | '-' :: r => r
    | '+' :: r => r
    | r => r
  if "Infinity".toList.isPrefixOf rest then .infinity negative
  else
    let intDigits := rest.takeWhile Char.isDigit
    let afterInt := rest.dropWhile Char.isDigit
    let fracDigits : JsString :=
      match afterInt with
      | '.' :: r => r.takeWhile Char.isDigit
      | _ => []
    let afterFrac : JsString :=
      match afterInt with
      | '.' :: r => r.dropWhile Char.isDigit
      | r => r
    if intDigits.isEmpty && fracDigits.isEmpty then .nan
    else
      .decimal negative (digitsValue (intDigits ++ fracDigits))
        (exponentOf afterFrac - (fracDigits.length : Int))

/-- The object `salvarRegistro` posts. -/
structure RegistroPayload where
  valorGlicemia : ParsedFloat
  ultimaRefeicao : JsString
  ultimoExercicio : JsString
  sintomas : JsString

/-! ## The page state -/

/-- `localStorage`: string keys and string values. -/
abbrev Storage := List (JsString × JsString)

/-- `localStorage.getItem(key)`: `none` is `null`. -/
def Storage.getItem (st : Storage) (key : JsString) : Option JsString :=
  (st.find? (fun kv => kv.1 = key)).map (fun kv => kv.2)

/-- `localStorage.removeItem(key)`. -/
def Storage.removeItem (st : Storage) (key : JsString) : Storage :=
  st.filter (fun kv => kv.1 ≠ key)

/-- `localStorage.setItem(key, value)`. -/
def Storage.setItem (st : Storage) (key value : JsString) : Storage :=
  (key, value) :: Storage.removeItem st key

/-- The `body` argument of `apiFetch`: a `FormData` object, a value, or the
measurement object, whose number need not be an integer. -/
inductive ApiBody where
  | formData
  | value (v : JsValue)
  | registro (payload : RegistroPayload)

/-- The `body` option handed to `fetch`: the form payload itself, or the text
`JSON.stringify(v)`, kept as the value `v` it serialises. -/
inductive RequestBody where
  | form
  | jsonOf (v : JsValue)
  | registroOf (payload : RegistroPayload)

/-- A call of `fetch(url, { method, headers, body })`. -/
structure Request where
  url : JsString
  method : JsString
  headers : List (JsString × JsString)
  body : Option RequestBody

/-- What the transport does with a request: the `fetch` promise rejects, or a
response arrives with a status and a body whose text may be unreadable
(`res.text()` rejects). -/
inductive FetchOutcome where
  | rejected (err : JsError)
  | response (status : Nat) (text : Option JsString)

/-- The transport: the outcome of a request, given the requests issued before. -/
abbrev Transport := List Request → Request → FetchOutcome

/-- The object `apiFetch` resolves to (the `resp` field is left out). -/
structure ApiResult where
  ok : Bool
  status : Nat
  data : JsValue
  error : Option JsError

/-- The element `#chatBox`: its markup and the value last assigned to
`scrollTop` (the browser shows the feed at that offset, or at the largest
offset the content allows when that is smaller). -/
structure ChatBox where
  innerHTML : JsString
  scrollTop : Nat

/-- The configuration the history chart is created with. -/
structure ChartConfig where
  labels : List JsValue
  data : List JsValue
  borderColor : JsString
  backgroundColor : JsString
  gridColor : JsString
  tickColor : JsString

/-- The state the script reads and writes: `localStorage`, its two globals, the
interval timers and chart instances alive in the page, the elements it looks
up (`none` or `false` when the page has no such element), the requests sent
and the alerts shown. -/
structure World where
  storage : Storage
  /-- The global `_chatPollTimer` (`none` is `null`). -/
  chatPollTimer : Option Nat
  /-- Handles of the interval timers that are active. -/
  intervals : List Nat
  /-- The handle the next `setInterval` returns. -/
  nextHandle : Nat
  /-- The global `_glicemiaChart` (`none` is `null`), as an instance number. -/
  glicemiaChart : Option Nat
  /-- Chart instances created and not destroyed. -/
  charts : List (Nat × ChartConfig)
  /-- The number of the next chart instance. -/
  nextChart : Nat
  /-- Whether `document.body` has the class `dark`. -/
  bodyDark : Bool
  temaIcon : Option JsString
  temaLabel : Option JsString
  temaCheckbox : Option Bool
  /-- `window.location.pathname`. -/
  pathname : JsString
  /-- The markup of `#historicoBody`. -/
  historicoBody : Option JsString
  /-- Whether the canvas `#graficoGlicemia` exists. -/
  graficoGlicemia : Bool
  /-- Whether the global `Chart` is defined. -/
  chartLibrary : Bool
  chatBox : Option ChatBox
  /-- The value of `#chatInput`. -/
  chatInput : Option JsString
  requests : List Request
  alerts : List JsString

/-- The outcome of running a function: the state it leaves and the exception
it threw (or its promise rejected with), if any. -/
structure Completion where
  world : World
  thrown : Option JsError

def API_BASE_URL : JsString := "http://127.0.0.1:5000".toList

def TOKEN_KEY : JsString := "authToken".toList

def THEME_KEY : JsString := "themePreference".toList

def CHAT_POLL_MS : Nat := 2000

/-! ## `getToken`, `setToken` (script.js 16-22) -/

/-- `getToken()`. -/
def getToken (w : World) : Option JsString := w.storage.getItem TOKEN_KEY

/-- `setToken(token)`: a truthy token is stored (as its string), any other
value removes the key. -/
def setToken (token : JsValue) (w : World) : World :=
  if token.truthy then { w with storage := w.storage.setItem TOKEN_KEY token.toStr }
  else { w with storage := w.storage.removeItem TOKEN_KEY }

/-! ## `apiFetch` (script.js 59-79) -/

/-- The `headers` object `apiFetch` builds, in insertion order. -/
def apiHeaders (w : World) (body : Option ApiBody) : List (JsString × JsString) :=
  let headers : List (JsString × JsString) := []
  let headers :=
    match body with
    | some .formData => headers
    | _ => headers ++ [("Content-Type".toList, "application/json".toList)]
  match getToken w with
  | some token =>
    if !token.isEmpty then headers ++ [("Authorization".toList, "Bearer ".toList ++ token)]
    else headers
  | none => headers

/-- The `body` option: set only for a truthy `body`. -/
def apiRequestBody (body : Option ApiBody) : Option RequestBody :=
  match body with
  | none => none
  | some .formData => some .form
  | some (.value v) => if v.truthy then some (.jsonOf v) else none
  | some (.registro payload) => some (.registroOf payload)

/-- The request `apiFetch(endpoint, method, body)` hands to `fetch`. -/
def apiRequest (w : World) (endpoint method : JsString) (body : Option ApiBody) : Request :=
  { url := API_BASE_URL ++ endpoint
    method := method
    headers := apiHeaders w body
    body := apiRequestBody body }

/-- `Response.ok` as the Fetch standard defines it: a status in 200..299. -/
def statusOk (status : Nat) : Bool := decide (200 ≤ status ∧ status ≤ 299)

/-- The `try` block of `apiFetch`: `await fetch(...)` throws when the promise
rejects; an unreadable body is read as `null`; text that `JSON.parse` rejects
is kept as it is. -/
def apiFetchTry (P : Platform) (outcome : FetchOutcome) : Except JsError ApiResult := do
  let res : Nat × Option JsString ←
    match outcome with
    | .rejected err => throw err
    | .response status text => pure (status, text)
  let text : Option JsString := res.2
  let data : JsValue :=
    match text with
    | none => .null
    | some t =>
      if t.isEmpty then .null
      else
        match P.jsonParse t with
        | .ok v => v
        | .error _ => .str t
  pure { ok := statusOk res.1, status := res.1, data := data, error := none }

/-- What `apiFetch` resolves to: the result of the `try` block, or the object
the `catch` block builds. -/
def apiResult (P : Platform) (outcome : FetchOutcome) : ApiResult :=
  match apiFetchTry P outcome with
  | .ok r => r
  | .error err => { ok := false, status := 0, data := .null, error := some err }

/-- `await apiFetch(endpoint, method, body)`: the request is recorded, the
transport decides its outcome. -/
def apiFetch (T : Transport) (P : Platform) (w : World) (endpoint method : JsString)
    (body : Option ApiBody) : ApiResult × World :=
  let req := apiRequest w endpoint method body
  (apiResult P (T w.requests req), { w with requests := w.requests ++ [req] })

/-! ## Values as records: properties, dates, sorting -/

/-- `v === null || v === undefined`: reading a property of such a value throws. -/
def JsValue.nullish : JsValue → Bool
  | .undefined => true
  | .null => true
  | _ => false

/-- The property read `v.key` on a value that is not nullish, for the property
names the script reads from parsed JSON: the field of an object, `undefined`
on everything else. -/
def JsValue.prop (v : JsValue) (key : String) : JsValue :=
  match v with
  | .obj fields =>
    match fields.find? (fun kv => kv.1 = key.toList) with
    | some kv => kv.2
    | none => .undefined
  | _ => .undefined

/-- The optional read `v?.key`: `undefined` on `null` and `undefined` too. -/
def JsValue.optProp (v : JsValue) (key : String) : JsValue :=
  if v.nullish then .undefined else v.prop key

/-- `Array.isArray(v)`. -/
def JsValue.isArray : JsValue → Bool
  | .arr _ => true
  | _ => false

/-- The time value of `new Date(v)` for one argument, when the coercion of `v`
completes (an array or object is parsed as its text). -/
def newDate (P : Platform) (v : JsValue) : JsNum :=
  match v with
  | .undefined => none
  | .null => some 0
  | .bool b => some (if b then 1 else 0)
  | .num n => timeClip n
  | .str s => P.dateParse s
  | .arr items => P.dateParse (JsValue.arr items).toStr
  | .obj fields => P.dateParse (JsValue.obj fields).toStr

/-- The subtraction `a - b` of two numbers; `NaN` when one of them is. -/
def numSub (a b : JsNum) : JsNum :=
  match a, b with
  | some x, some y => some (x - y)
  | _, _ => none

/-- Whether a comparator result asks for a swap: a number above zero. `NaN`
counts as zero. -/
def positive (n : JsNum) : Bool :=
  match n with
  | some d => decide (0 < d)
  | none => false

/-- Insertion of `x` before the sorted list `ys`: `x` moves right past every
element the comparator puts before it. -/
def sortInsert (cmp : JsValue → JsValue → JsNum) (x : JsValue) : List JsValue → List JsValue
  | [] => [x]
  | y :: ys => if positive (cmp x y) then y :: sortInsert cmp x ys else x :: y :: ys

/-- `array.sort(cmp)` as a stable insertion sort. For a comparator that is a
consistent ordering, every stable sort gives this result; for an inconsistent
one the standard leaves the order to the implementation. -/
def jsSort (cmp : JsValue → JsValue → JsNum) (xs : List JsValue) : List JsValue :=
  xs.foldr (sortInsert cmp) []

/-- The instant of a record: `new Date(r.timestamp)`. -/
def instant (P : Platform) (r : JsValue) : JsNum := newDate P (r.prop "timestamp")

/-- The table comparator `(a, b) => new Date(b.timestamp) - new Date(a.timestamp)`. -/
def cmpNewestFirst (P : Platform) (a b : JsValue) : JsNum :=
  numSub (instant P b) (instant P a)

/-- The chart comparator `(a, b) => new Date(a.timestamp) - new Date(b.timestamp)`. -/
def cmpOldestFirst (P : Platform) (a b : JsValue) : JsNum :=
  numSub (instant P a) (instant P b)

/-- `s.replace(pat, rep)` for a string pattern: the first occurrence only. -/
def replaceFirst (pat rep : JsString) : JsString → JsString
  | [] => if pat.isEmpty then rep else []
  | c :: cs =>
    if pat.isPrefixOf (c :: cs) then rep ++ (c :: cs).drop pat.length
    else c :: replaceFirst pat rep cs

/-! ## Theme (script.js 84-124) -/

/-- `applyTheme(theme)`. -/
def applyTheme (theme : JsString) (w : World) : World :=
  let dark : Bool := decide (theme = "dark".toList)
  { w with
    bodyDark := dark
    temaIcon := w.temaIcon.map (fun _ => if dark then "🌕".toList else "🌓".toList)
    temaLabel := w.temaLabel.map (fun _ =>
      if dark then "Modo Claro".toList else "Modo Escuro".toList)
    temaCheckbox := w.temaCheckbox.map (fun _ => dark) }

/-- `loadTheme()`. `matchMedia` is what the browser reports for
`(prefers-color-scheme: dark)`: `none` when `window.matchMedia` is missing,
otherwise the `matches` flag of the query. -/
def loadTheme (matchMedia : Option Bool) (w : World) : World :=
  let system : World :=
    match matchMedia with
    | some true => applyTheme "dark".toList w
    | _ => applyTheme "light".toList w
  match w.storage.getItem THEME_KEY with
  | some savedTheme => if !savedTheme.isEmpty then applyTheme savedTheme w else system
  | none => system

/-- The part of `carregarHistorico()` that runs before its `await`: the request
for the records is sent. -/
def carregarHistoricoBegin (w : World) : World :=
  { w with requests := w.requests ++ [apiRequest w "/api/records".toList "GET".toList none] }

/-- `saveTheme(theme)`. The call `carregarHistorico()` is not awaited: it runs
to its `await` here, and resumes when the response arrives. -/
def saveTheme (theme : JsString) (w : World) : World :=
  let w1 := { w with storage := w.storage.setItem THEME_KEY theme }
  let w2 := applyTheme theme w1
  if "historico.html".toList.isSuffixOf w2.pathname then carregarHistoricoBegin w2 else w2

/-- `toggleTheme()`. -/
def toggleTheme (w : World) : World :=
  let currentTheme : JsString := if w.bodyDark then "dark".toList else "light".toList
  let newTheme : JsString :=
    if currentTheme = "dark".toList then "light".toList else "dark".toList
  saveTheme newTheme w

/-! ## History (script.js 215-302) -/

/-- `_glicemiaChart.destroy(); _glicemiaChart = null`, when the global is set. -/
def destroyChart (w : World) : World :=
  match w.glicemiaChart with
  | some c => { w with charts := w.charts.filter (fun ch => ch.1 ≠ c), glicemiaChart := none }
  | none => w

/-- The table row of one record. -/
def renderRegistro (P : Platform) (r : JsValue) : JsString :=
  "\n            <tr>\n                <td>".toList
    ++ (formatTimestamp P (r.prop "timestamp")).toStr
    ++ "</td>\n                <td>".toList
    ++ (r.prop "value").toStr
    ++ "</td>\n                <td>".toList
    ++ (if (r.prop "meal_time").truthy then (formatTimestamp P (r.prop "meal_time")).toStr
        else "—".toList)
    ++ "</td>\n                <td>".toList
    ++ (if (r.prop "exercise_time").truthy then
          (formatTimestamp P (r.prop "exercise_time")).toStr
        else "—".toList)
    ++ "</td>\n                <td>".toList
    ++ (if (r.prop "symptoms").truthy then (r.prop "symptoms").toStr else "—".toList)
    ++ "</td>\n            </tr>\n        ".toList

/-- Whether the template literal of a table row completes: every value it
interpolates can be coerced to a string. -/
def registroRenders (P : Platform) (r : JsValue) : Bool :=
  (formatTimestamp P (r.prop "timestamp")).coercible
    && (r.prop "value").coercible
    && (!(r.prop "meal_time").truthy || (formatTimestamp P (r.prop "meal_time")).coercible)
    && (!(r.prop "exercise_time").truthy
        || (formatTimestamp P (r.prop "exercise_time")).coercible)
    && (!(r.prop "symptoms").truthy || (r.prop "symptoms").coercible)

/-- Whether the comparators complete on an array: with two or more records
every record is compared, and `new Date(r.timestamp)` must coerce each
timestamp. -/
def timestampsCompare (data : List JsValue) : Bool :=
  decide (data.length < 2) || data.all (fun r => (r.prop "timestamp").coercible)

/-- The table order: `res.data.sort(...)` newest first. -/
def registrosOf (P : Platform) (data : List JsValue) : List JsValue :=
  jsSort (cmpNewestFirst P) data

/-- The chart order: the same array, as the first sort left it, sorted again
oldest first. -/
def chartDataOf (P : Platform) (data : List JsValue) : List JsValue :=
  jsSort (cmpOldestFirst P) (registrosOf P data)

/-- The chart configuration for the fetched records and the active theme. -/
def chartConfigOf (P : Platform) (isDark : Bool) (data : List JsValue) : ChartConfig :=
  let labels := (chartDataOf P data).map (fun r => formatTimestamp P (r.prop "timestamp"))
  let valores := (chartDataOf P data).map (fun r => r.prop "value")
  let chartColor : JsString := if isDark then "#57d084".toList else "#4caf50".toList
  let gridColor : JsString :=
    if isDark then "rgba(255, 255, 255, 0.1)".toList else "rgba(0, 0, 0, 0.1)".toList
  let tickColor : JsString := if isDark then "#e6eef8".toList else "#111827".toList
  { labels := labels
    data := valores
    borderColor := chartColor
    backgroundColor := replaceFirst "1)".toList "0.1)".toList chartColor
    gridColor := gridColor
    tickColor := tickColor }

/-- The part of `carregarHistorico` after `await apiFetch("/api/records")`.
Reading `timestamp` of a `null` element, a comparator that cannot coerce a
timestamp, and (when the table exists) a row whose template literal cannot
coerce a field each throw before anything is written. A `Chart` constructor
that throws is caught and leaves the global `null`. -/
def carregarHistoricoResume (P : Platform) (res : ApiResult) (w : World) : Completion :=
  match res.ok, res.data with
  | true, .arr data =>
    if data.any JsValue.nullish then { world := w, thrown := some JsError.typeError }
    else if !timestampsCompare data then { world := w, thrown := some JsError.typeError }
    else if w.historicoBody.isSome && !data.all (registroRenders P) then
      { world := w, thrown := some JsError.typeError }
    else
      let registros := registrosOf P data
      let w1 := { w with
        historicoBody := w.historicoBody.map (fun _ => (registros.map (renderRegistro P)).flatten) }
      if w1.graficoGlicemia && w1.chartLibrary then
        let w2 := destroyChart w1
        if P.chartFails w2.nextChart then
          { world := { w2 with nextChart := w2.nextChart + 1 }, thrown := none }
        else
          { world := { w2 with
              charts := w2.charts ++ [(w2.nextChart, chartConfigOf P w2.bodyDark data)]
              glicemiaChart := some w2.nextChart
              nextChart := w2.nextChart + 1 }
            thrown := none }
      else { world := w1, thrown := none }
  | _, _ =>
    { world := destroyChart { w with
        historicoBody := w.historicoBody.map (fun _ =>
          "<tr><td colspan='5'>Nenhum registro.</td></tr>".toList) }
      thrown := none }

/-- `await carregarHistorico()` run without interruption. -/
def carregarHistorico (T : Transport) (P : Platform) (w : World) : Completion :=
  let r := apiFetch T P w "/api/records".toList "GET".toList none
  carregarHistoricoResume P r.1 r.2

/-! ## Chat (script.js 323-368) -/

/-- The feed block of one message. -/
def renderMensagem (P : Platform) (m : JsValue) : JsString :=
  "\n        <div class=\"msg\">\n            <strong>".toList
    ++ escapeHtml (m.prop "username")
    ++ "</strong>\n            <small>".toList
    ++ (formatTimestamp P (m.prop "timestamp")).toStr
    ++ "</small>\n            <p>".toList
    ++ escapeHtml (m.prop "content")
    ++ "</p>\n        </div>\n    ".toList

/-- Whether the template literal of a feed block completes: `escapeHtml` can
coerce `username` and `content`, and the formatted timestamp can be coerced. -/
def mensagemRenders (P : Platform) (m : JsValue) : Bool :=
  (m.prop "username").coercible
    && (formatTimestamp P (m.prop "timestamp")).coercible
    && (m.prop "content").coercible

/-- The part of `carregarChat()` that runs before its `await`: without the
element `#chatBox` nothing happens, otherwise the request is sent. -/
def carregarChatBegin (w : World) : World :=
  match w.chatBox with
  | none => w
  | some _ =>
    { w with
      requests := w.requests ++ [apiRequest w "/api/chat/messages".toList "GET".toList none] }

/-- The part of `carregarChat` after `await apiFetch("/api/chat/messages")`.
`res.data.map` throws when `res.data` is not an array, reading `username` of a
`null` element throws, and a block whose fields cannot be coerced throws, each
before the feed is written. `scrollTop` is assigned `scrollHeight`. -/
def carregarChatResume (P : Platform) (res : ApiResult) (w : World) : Completion :=
  if !res.ok then { world := w, thrown := none }
  else
    match res.data with
    | .arr msgs =>
      if msgs.any JsValue.nullish then { world := w, thrown := some JsError.typeError }
      else if !msgs.all (mensagemRenders P) then
        { world := w, thrown := some JsError.typeError }
      else
        let html := (msgs.map (renderMensagem P)).flatten
        { world := { w with
            chatBox := w.chatBox.map (fun _ =>
              { innerHTML := html, scrollTop := P.scrollHeight html }) }
          thrown := none }
    | _ => { world := w, thrown := some JsError.typeError }

/-- `await carregarChat()` run without interruption. -/
def carregarChat (T : Transport) (P : Platform) (w : World) : Completion :=
  match w.chatBox with
  | none => { world := w, thrown := none }
  | some _ =>
    let r := apiFetch T P w "/api/chat/messages".toList "GET".toList none
    carregarChatResume P r.1 r.2

/-- The text an `alert(value || fallback)` shows, for a value whose coercion
completes. -/
def orElse (v : JsValue) (fallback : JsString) : JsString :=
  if v.truthy then v.toStr else fallback

/-- `await enviarMensagem()` run without interruption. -/
def enviarMensagem (T : Transport) (P : Platform) (w : World) : Completion :=
  let msg : JsString :=
    match w.chatInput with
    | some value => value
    | none => []
  if msg.isEmpty || (trim msg).isEmpty then { world := w, thrown := none }
  else
    let r := apiFetch T P w "/api/chat/messages".toList "POST".toList
      (some (.value (.obj [("content".toList, .str (trim msg))])))
    if !r.1.ok then
      { world := { r.2 with
          alerts := r.2.alerts ++
            [orElse (r.1.data.optProp "message") "Erro ao enviar mensagem".toList] }
        thrown := none }
    else
      carregarChat T P { r.2 with chatInput := r.2.chatInput.map (fun _ => []) }

/-- `clearInterval(handle)`. -/
def clearInterval (handle : Nat) (w : World) : World :=
  { w with intervals := w.intervals.filter (fun h => h ≠ handle) }

/-- `startChatPolling()`: a truthy `_chatPollTimer` is cleared, `carregarChat()`
starts (not awaited), and `setInterval(carregarChat, CHAT_POLL_MS)` returns a
fresh handle that becomes the new `_chatPollTimer`. -/
def startChatPolling (w : World) : World :=
  let w1 :=
    match w.chatPollTimer with
    | some h => if h != 0 then clearInterval h w else w
    | none => w
  let w2 := carregarChatBegin w1
  { w2 with
    intervals := w2.intervals ++ [w2.nextHandle]
    nextHandle := w2.nextHandle + 1
    chatPollTimer := some w2.nextHandle }

/-- `stopChatPolling()`. -/
def stopChatPolling (w : World) : World :=
  match w.chatPollTimer with
  | some h => if h != 0 then { clearInterval h w with chatPollTimer := none } else w
  | none => w

/-! ## Measurement form (script.js 181-210) -/

/-- The elements `salvarRegistro` looks up: the value of each input (`none`
when the page has no such element) and, for `#registroForm`, how often
`reset()` was called on it. -/
structure RegistroForm where
  valorGlicemia : Option JsString
  ultimaRefeicao : Option JsString
  ultimoExercicio : Option JsString
  sintomas : Option JsString
  resets : Option Nat

/-- What `salvarRegistro` leaves: the page and the form. -/
structure RegistroOutcome where
  completion : Completion
  form : RegistroForm

/-- The `valor` of `salvarRegistro`:
`parseFloat(String(valorEl.value).replace(',', '.'))`, `NaN` without the
element. -/
def valorOf (form : RegistroForm) : ParsedFloat :=
  match form.valorGlicemia with
  | some value => parseFloat (replaceFirst [','] ['.'] value)
  | none => .nan

/-- The `payload` of `salvarRegistro`; a missing or empty input gives `""`. -/
def payloadOf (form : RegistroForm) : RegistroPayload :=
  { valorGlicemia := valorOf form
    ultimaRefeicao := form.ultimaRefeicao.getD []
    ultimoExercicio := form.ultimoExercicio.getD []
    sintomas := form.sintomas.getD [] }

/-- `await salvarRegistro()` run without interruption. The call
`carregarHistorico()` after a success is not awaited. -/
def salvarRegistro (T : Transport) (P : Platform) (form : RegistroForm) (w : World) :
    RegistroOutcome :=
  let valor := valorOf form
  if valor.isNaN || valor.ltZero then
    { completion :=
        { world := { w with alerts := w.alerts ++ ["Valor de glicemia inválido!".toList] }
          thrown := none }
      form := form }
  else
    let r := apiFetch T P w "/api/record".toList "POST".toList
      (some (.registro (payloadOf form)))
    if r.1.ok then
      let w1 := { r.2 with alerts := r.2.alerts ++ ["Registro salvo com sucesso!".toList] }
      { completion :=
          { world :=
              match w1.historicoBody with
              | some _ => carregarHistoricoBegin w1
              | none => w1
            thrown := none }
        form := { form with resets := form.resets.map (fun n => n + 1) } }
    else
      { completion :=
          { world := { r.2 with
              alerts := r.2.alerts ++ [orElse (r.1.data.optProp "message") "Erro ao salvar.".toList] }
            thrown := none }
        form := form }

/-- The request `salvarRegistro` sends for a form. -/
def registroRequest (w : World) (form : RegistroForm) : Request :=
  apiRequest w "/api/record".toList "POST".toList (some (.registro (payloadOf form)))

/-- A form whose value field holds `12abc`. -/
def form12abc : RegistroForm :=
  { valorGlicemia := some "12abc".toList
    ultimaRefeicao := some []
    ultimoExercicio := some []
    sintomas := some []
    resets := some 0 }

/-! ## Predicates used by the statements -/

/-- The states reachable from a page without a timer by calls of
`startChatPolling` and `stopChatPolling`. Timer handles are positive. -/
inductive PollReachable : World → Prop where
  | init (w : World) (hTimer : w.chatPollTimer = none) (hNone : w.intervals = [])
      (hPos : 0 < w.nextHandle) : PollReachable w
  | start (w : World) (h : PollReachable w) : PollReachable (startChatPolling w)
  | stop (w : World) (h : PollReachable w) : PollReachable (stopChatPolling w)

/-- The states reachable from a page without a chart by executions of
`carregarHistorico` in any interleaving: a call runs to its `await`, and a
call that is waiting resumes with whatever result `apiFetch` gives it. -/
inductive HistoricoReachable (P : Platform) : World → Prop where
  | init (w : World) (hHandle : w.glicemiaChart = none) (hNone : w.charts = []) :
      HistoricoReachable P w
  | call (w : World) (h : HistoricoReachable P w) :
      HistoricoReachable P (carregarHistoricoBegin w)
  | resume (w : World) (res : ApiResult) (h : HistoricoReachable P w) :
      HistoricoReachable P (carregarHistoricoResume P res w).world

/-- Text on which the `Number` of this embedding is exact: after trimming, the
empty string, an optionally signed string of digits, or text without any
digit that is not an `Infinity` literal (which is `NaN`). -/
def numberFieldExact (s : JsString) : Bool :=
  let t := trim s
  t.isEmpty || isDigits t
    || (match t with
        | '+' :: ds => isDigits ds
        | '-' :: ds => isDigits ds
        | _ => false)
    || (!t.any Char.isDigit && !("Infinity".toList.isSuffixOf t))

/-- A string on which `formatTimestamp` of this embedding is exact: one that
does not take the local-component branch, or whose date and time fields are
all read exactly. -/
def naiveFieldsExact (s : JsString) : Bool :=
  if s.contains 'T' && decide (16 ≤ jsLength s) && decide (jsLength s ≤ 19)
      && !endsWithChar s 'Z' then
    match splitChar 'T' s with
    | datePart :: timePart :: _ =>
      ((splitChar '-' datePart).take 3).all numberFieldExact
        && ((splitChar ':' timePart).take 2).all numberFieldExact
    | _ => true
  else true

/-- A primitive timestamp: a plain value that, when it is a string, is read
exactly. -/
def timestampPlain (v : JsValue) : Bool :=
  match v with
  | .str s => naiveFieldsExact s
  | v => v.plain

/-- A record whose rendered fields are primitives. -/
def registroPlain (r : JsValue) : Bool :=
  timestampPlain (r.prop "timestamp") && (r.prop "value").plain
    && timestampPlain (r.prop "meal_time") && timestampPlain (r.prop "exercise_time")
    && (r.prop "symptoms").plain

/-- A message that is not `null` and whose rendered fields are primitives. -/
def mensagemPlain (m : JsValue) : Bool :=
  !m.nullish && (m.prop "username").plain && timestampPlain (m.prop "timestamp")
    && (m.prop "content").plain

/-- One of the five entities `escapeHtml` writes. -/
def IsEntity (t : JsString) : Prop :=
  t = "&amp;".toList ∨ t = "&lt;".toList ∨ t = "&gt;".toList ∨ t = "&quot;".toList ∨
    t = "&#039;".toList

/-- A character that needs no escaping. -/
def IsPlainChar (c : Char) : Prop :=
  c ≠ '&' ∧ c ≠ '<' ∧ c ≠ '>' ∧ c ≠ dquote ∧ c ≠ apostrophe

/-- Text without an unescaped special character: a sequence of entities and
plain characters. -/
def Escaped (text : JsString) : Prop :=
  ∃ tokens : List JsString, text = tokens.flatten ∧
    ∀ t ∈ tokens, IsEntity t ∨ ∃ c, t = [c] ∧ IsPlainChar c

/-- The text of `#chatInput` as `enviarMensagem` reads it: the empty string
when the element is missing. -/
def chatInputText (w : World) : JsString :=
  match w.chatInput with
  | some value => value
  | none => []

/-- The request `enviarMensagem` sends for the text in `#chatInput`. -/
def mensagemRequest (w : World) : Request :=
  apiRequest w "/api/chat/messages".toList "POST".toList
    (some (.value (.obj [("content".toList, .str (trim (chatInputText w)))])))

/-- The page once that request is sent. -/
def mensagemSent (w : World) : World :=
  { w with requests := w.requests ++ [mensagemRequest w] }

/-- Whether a request is a `POST`. -/
def isPost (r : Request) : Bool := decide (r.method = "POST".toList)

/-! ## A platform and data for examples -/

/-- `Date.parse` on the date-time form `YYYY-MM-DDTHH:MM` for a viewer in UTC;
any other text is not recognised. -/
def exampleDateParse (s : JsString) : JsNum :=
  if s.length = 16 then
    match splitChar 'T' s with
    | [datePart, timePart] =>
      match (splitChar '-' datePart).map stringToNumber,
          (splitChar ':' timePart).map stringToNumber with
      | [some y, some m, some d], [some h, some n] =>
        timeClip (makeDate (makeDay y (m - 1) d) (makeTime h n 0 0))
      | _, _ => none
    | _ => none
  else none

/-- A viewer in UTC whose `Date.parse` reads the date-time form. -/
def examplePlatform : Platform :=
  { localTZA := fun _ _ => 0
    localTZA_bound := fun _ _ => by simp [msPerDay]
    dateParse := exampleDateParse
    localeDate := fun _ => "D".toList
    jsonParse := fun _ => .error JsError.syntaxError
    scrollHeight := fun html => html.length
    chartFails := fun _ => false }

/-- The record `{timestamp: "2024-01-01T10:00", value: 100}`. -/
def recordJan1 : JsValue :=
  .obj [("timestamp".toList, .str "2024-01-01T10:00".toList), ("value".toList, .num 100)]

/-- The record `{timestamp: "2024-01-02T10:00", value: 120}`. -/
def recordJan2 : JsValue :=
  .obj [("timestamp".toList, .str "2024-01-02T10:00".toList), ("value".toList, .num 120)]

/-- A page with every element the script looks up, nothing stored, no timer
and no chart. -/
def emptyPage : World :=
  { storage := []
    chatPollTimer := none
    intervals := []
    nextHandle := 1
    glicemiaChart := none
    charts := []
    nextChart := 0
    bodyDark := false
    temaIcon := some []
    temaLabel := some []
    temaCheckbox := some false
    pathname := "/index.html".toList
    historicoBody := some []
    graficoGlicemia := true
    chartLibrary := true
    chatBox := some { innerHTML := [], scrollTop := 0 }
    chatInput := some []
    requests := []
    alerts := [] }

/-- The JSON text of a one-message feed. -/
def chatExampleText : JsString :=
  "[\x7b\"username\":\"<b>ana</b>\",\"content\":\"oi & tchau\"\x7d]".toList

/-- The value `JSON.parse` gives for `chatExampleText`. -/
def chatExampleData : List JsValue :=
  [.obj [("username".toList, .str "<b>ana</b>".toList),
    ("content".toList, .str "oi & tchau".toList)]]

/-- A viewer in UTC whose `JSON.parse` reads `chatExampleText`. -/
def chatExamplePlatform : Platform :=
  { localTZA := fun _ _ => 0
    localTZA_bound := fun _ _ => by simp [msPerDay]
    dateParse := exampleDateParse
    localeDate := fun _ => "D".toList
    jsonParse := fun t =>
      if t = chatExampleText then .ok (.arr chatExampleData) else .error JsError.syntaxError
    scrollHeight := fun html => html.length
    chartFails := fun _ => false }

/-- A transport that answers every request with status 200 and `chatExampleText`. -/
def chatExampleTransport : Transport := fun _ _ => .response 200 (some chatExampleText)

/-! ## Lemmas on `replaceAll` and `escapeHtml` -/

theorem replaceAllFrom_single (c : Char) (rep s : JsString) :
    replaceAllFrom [c] rep 0 s = s.flatMap (fun x => if x = c then rep else [x]) := by
  induction s with
  | nil => rfl
  | cons x xs ih =>
    by_cases h : x = c
    · subst h
      simp [replaceAllFrom, List.isPrefixOf, ih]
    · have h2 : ¬ c = x := fun e => h e.symm
      simp [replaceAllFrom, List.isPrefixOf, ih, h, h2]

theorem replaceAll_single (c : Char) (rep s : JsString) :
    replaceAll s [c] rep = s.flatMap (fun x => if x = c then rep else [x]) := by
  simp [replaceAll, replaceAllFrom_single]

theorem flatMap_flatMap_chars (s : JsString) (f g : Char → JsString) :
    (s.flatMap f).flatMap g = s.flatMap (fun x => (f x).flatMap g) := by
  induction s with
  | nil => rfl
  | cons x xs ih => simp [List.flatMap_cons, List.flatMap_append, ih]

theorem escape_steps_char (x : Char) :
    ((if x = '&' then "&amp;".toList else [x]).flatMap fun x =>
      (if x = '<' then "&lt;".toList else [x]).flatMap fun x =>
        (if x = '>' then "&gt;".toList else [x]).flatMap fun x =>
          (if x = dquote then "&quot;".toList else [x]).flatMap fun x =>
            if x = apostrophe then "&#039;".toList else [x])
      = escapeChar x := by
  unfold escapeChar
  by_cases h1 : x = '&'
  · subst h1; decide
  by_cases h2 : x = '<'
  · subst h2; decide
  by_cases h3 : x = '>'
  · subst h3; decide
  by_cases h4 : x = dquote
  · subst h4; decide
  by_cases h5 : x = apostrophe
  · subst h5; decide
  simp [h1, h2, h3, h4, h5]

theorem escapeHtml_str (s : JsString) :
    escapeHtml (.str s) = s.flatMap escapeChar := by
  simp only [escapeHtml, JsValue.toStr, replaceAll_single, flatMap_flatMap_chars]
  congr 1
  funext x
  exact escape_steps_char x

theorem escapeChar_safe (x c : Char) (h : c ∈ escapeChar x) :
    c ≠ '<' ∧ c ≠ '>' ∧ c ≠ dquote ∧ c ≠ apostrophe := by
  unfold escapeChar at h
  split_ifs at h with h1 h2 h3 h4 h5
  · revert c; decide
  · revert c; decide
  · revert c; decide
  · revert c; decide
  · revert c; decide
  · simp at h; subst h; exact ⟨h2, h3, h4, h5⟩

/-! ## Lemmas on digits and dates -/

theorem isDigit_bounds (c : Char) (h : c.isDigit = true) : 48 ≤ c.toNat ∧ c.toNat ≤ 57 := by
  simp only [Char.isDigit, Bool.and_eq_true, decide_eq_true_eq] at h
  obtain ⟨h1, h2⟩ := h
  have hlo : (48 : UInt32) ≤ c.val := h1
  rw [UInt32.le_def, BitVec.le_def] at hlo h2
  exact ⟨hlo, h2⟩

theorem digitChar_of_isDigit (c : Char) (h : c.isDigit = true) :
    digitChar (c.toNat - 48) = c := by
  have hb := isDigit_bounds c h
  unfold digitChar
  have : 48 + (c.toNat - 48) = c.toNat := by omega
  rw [this]
  exact Char.ofNat_toNat c

theorem isDigit_ne (c : Char) (h : c.isDigit = true) :
    c ≠ 'T' ∧ c ≠ '-' ∧ c ≠ ':' ∧ c ≠ 'Z' ∧ c ≠ '+' := by
  have hb := isDigit_bounds c h
  refine ⟨?_, ?_, ?_, ?_, ?_⟩ <;> (intro e; subst e; revert hb; decide)

theorem isDigit_not_whitespace (c : Char) (h : c.isDigit = true) :
    isJsWhitespace c = false := by
  have hb := isDigit_bounds c h
  unfold isJsWhitespace
  generalize c.toNat = n at hb
  obtain ⟨h1, h2⟩ := hb
  interval_cases n <;> decide

theorem dropWhile_whitespace_digits (s : JsString) (h : s.all Char.isDigit = true) :
    s.dropWhile isJsWhitespace = s := by
  cases s with
  | nil => rfl
  | cons c cs =>
    have hc : c.isDigit = true := by
      simp only [List.all_cons, Bool.and_eq_true] at h
      exact h.1
    simp [List.dropWhile, isDigit_not_whitespace c hc]

theorem trim_digits (s : JsString) (h : s.all Char.isDigit = true) : trim s = s := by
  unfold trim
  rw [dropWhile_whitespace_digits s h, dropWhile_whitespace_digits s.reverse (by simpa using h),
    List.reverse_reverse]

theorem stringToNumber_digits (c : Char) (cs : JsString) (h : isDigits (c :: cs) = true) :
    stringToNumber (c :: cs) = some (digitsValue (c :: cs) : Int) := by
  have hc : c.isDigit = true := by
    simp [isDigits] at h
    exact h.1
  have hall : (c :: cs).all Char.isDigit = true := by
    simp only [isDigits, Bool.and_eq_true] at h
    exact h.2
  obtain ⟨_, h2, _, _, h5⟩ := isDigit_ne c hc
  unfold stringToNumber
  rw [trim_digits (c :: cs) hall]
  split
  · simp_all
  · simp_all
  · simp_all
  · simp_all

theorem monthTable_bounds (k : Nat) :
    (0 : Int) ≤ [0, 31, 59, 90, 120, 151, 181, 212, 243, 273, 304, 334].getD k 0 ∧
    ([0, 31, 59, 90, 120, 151, 181, 212, 243, 273, 304, 334].getD k 0 : Int) ≤ 334 := by
  rcases k with _ | _ | _ | _ | _ | _ | _ | _ | _ | _ | _ | _ | k <;> simp

theorem daysBeforeMonth_bounds (l : Bool) (m : Int) :
    0 ≤ daysBeforeMonth l m ∧ daysBeforeMonth l m ≤ 335 := by
  have := monthTable_bounds m.toNat
  unfold daysBeforeMonth
  split_ifs <;> omega

theorem wallClock_eq (y m d h n : Int) :
    ∃ day : Int, wallClock y m d h n = day * 86400000 + h * 3600000 + n * 60000 ∧
      dayFromYear (makeFullYear y + m / 12) + d - 1 ≤ day ∧
      day ≤ dayFromYear (makeFullYear y + m / 12) + d + 334 := by
  refine ⟨makeDay (makeFullYear y) m d, ?_, ?_, ?_⟩
  · simp [wallClock, makeDate, makeTime, msPerDay, msPerHour, msPerMinute]; ring
  · have := daysBeforeMonth_bounds (inLeapYear (makeFullYear y + m / 12)) (m % 12)
    simp only [makeDay]; omega
  · have := daysBeforeMonth_bounds (inLeapYear (makeFullYear y + m / 12)) (m % 12)
    simp only [makeDay]; omega

theorem hour_min_of_wallClock (y m d h n : Int) (hh : 0 ≤ h ∧ h ≤ 23) (hn : 0 ≤ n ∧ n ≤ 59) :
    hourFromTime (wallClock y m d h n) = h ∧ minFromTime (wallClock y m d h n) = n := by
  obtain ⟨day, e, _, _⟩ := wallClock_eq y m d h n
  rw [e]
  simp only [hourFromTime, minFromTime, msPerHour, msPerMinute]
  omega

theorem twoDigits_digits (a b : Char) (ha : a.isDigit = true) (hb : b.isDigit = true) :
    twoDigits (digitsValue [a, b] : Int) = [a, b] := by
  have ba := isDigit_bounds a ha
  have bb := isDigit_bounds b hb
  have e : digitsValue [a, b] = 10 * (a.toNat - 48) + (b.toNat - 48) := by
    simp [digitsValue]
  unfold twoDigits
  rw [Int.toNat_ofNat, e]
  have e1 : (10 * (a.toNat - 48) + (b.toNat - 48)) / 10 = a.toNat - 48 := by omega
  have e2 : (10 * (a.toNat - 48) + (b.toNat - 48)) % 10 = b.toNat - 48 := by omega
  rw [e1, e2, digitChar_of_isDigit a ha, digitChar_of_isDigit b hb]

theorem digitsValue_two_le (a b : Char) (ha : a.isDigit = true) (hb : b.isDigit = true) :
    digitsValue [a, b] ≤ 99 := by
  have ba := isDigit_bounds a ha
  have bb := isDigit_bounds b hb
  simp [digitsValue]; omega

theorem digitsValue_four_le (a b c d : Char) (ha : a.isDigit = true) (hb : b.isDigit = true)
    (hc : c.isDigit = true) (hd : d.isDigit = true) :
    digitsValue [a, b, c, d] ≤ 9999 := by
  have ba := isDigit_bounds a ha
  have bb := isDigit_bounds b hb
  have bc := isDigit_bounds c hc
  have bd := isDigit_bounds d hd
  simp [digitsValue]; omega

/-! ## Theorems for the claims -/

/-- C1: for every string `s`, `escapeHtml(s)` is the character-by-character
escaping of `s` (the later `replaceAll` calls never touch an entity introduced
by an earlier one), the result has no `<`, `>`, double quote or apostrophe,
`escapeHtml("<b>hi</b>")` is `"&lt;b&gt;hi&lt;/b&gt;"`, and `null` and
`undefined` give the empty string. -/
theorem escapeHtml_spec :
    (∀ s : JsString, escapeHtml (.str s) = s.flatMap escapeChar) ∧
    (∀ s : JsString, '<' ∉ escapeHtml (.str s) ∧ '>' ∉ escapeHtml (.str s) ∧
        dquote ∉ escapeHtml (.str s) ∧ apostrophe ∉ escapeHtml (.str s)) ∧
    escapeHtml (.str "<b>hi</b>".toList) = "&lt;b&gt;hi&lt;/b&gt;".toList ∧
    escapeHtml .null = [] ∧ escapeHtml .undefined = [] := by
  refine ⟨escapeHtml_str, ?_, by decide, rfl, rfl⟩
  intro s
  have key : ∀ c ∈ escapeHtml (.str s),
      c ≠ '<' ∧ c ≠ '>' ∧ c ≠ dquote ∧ c ≠ apostrophe := by
    intro c hc
    rw [escapeHtml_str] at hc
    obtain ⟨x, _, hx⟩ := List.mem_flatMap.mp hc
    exact escapeChar_safe x c hx
  exact ⟨fun h => (key _ h).1 rfl, fun h => (key _ h).2.1 rfl,
    fun h => (key _ h).2.2.1 rfl, fun h => (key _ h).2.2.2 rfl⟩

/-- C2 (amended): for every string `YYYY-MM-DDTHH:MM` of decimal digits with
`HH ≤ 23` and `MM ≤ 59`, in a viewer zone where that wall-clock reading exists
(the offset at the instant it denotes is the offset it is read with, as in
every zone without a transition there), `formatTimestamp` returns the locale date, a space, and exactly the input's
`HH:MM` characters. -/
theorem formatTimestamp_naive (P : Platform)
    (y1 y2 y3 y4 m1 m2 d1 d2 h1 h2 n1 n2 : Char) (t : Int)
    (hdig : ∀ c ∈ [y1, y2, y3, y4, m1, m2, d1, d2, h1, h2, n1, n2], c.isDigit = true)
    (hh : digitsValue [h1, h2] ≤ 23) (hn : digitsValue [n1, n2] ≤ 59)
    (ht : t = wallClock (digitsValue [y1, y2, y3, y4]) ((digitsValue [m1, m2] : Int) - 1)
      (digitsValue [d1, d2]) (digitsValue [h1, h2]) (digitsValue [n1, n2]))
    (hz : WallClockExists P t) :
    formatTimestamp P
        (.str [y1, y2, y3, y4, '-', m1, m2, '-', d1, d2, 'T', h1, h2, ':', n1, n2])
      = .str (P.localeDate t ++ ' ' :: [h1, h2, ':', n1, n2]) := by
  simp only [List.mem_cons, List.mem_singleton, forall_eq_or_imp, forall_eq] at hdig
  obtain ⟨gy1, gy2, gy3, gy4, gm1, gm2, gd1, gd2, gh1, gh2, gn1, gn2, -⟩ := hdig
  have ny1 := isDigit_ne y1 gy1
  have ny2 := isDigit_ne y2 gy2
  have ny3 := isDigit_ne y3 gy3
  have ny4 := isDigit_ne y4 gy4
  have nm1 := isDigit_ne m1 gm1
  have nm2 := isDigit_ne m2 gm2
  have nd1 := isDigit_ne d1 gd1
  have nd2 := isDigit_ne d2 gd2
  have nh1 := isDigit_ne h1 gh1
  have nh2 := isDigit_ne h2 gh2
  have nn1 := isDigit_ne n1 gn1
  have nn2 := isDigit_ne n2 gn2
  have sY := stringToNumber_digits y1 [y2, y3, y4] (by simp [isDigits, gy1, gy2, gy3, gy4])
  have sM := stringToNumber_digits m1 [m2] (by simp [isDigits, gm1, gm2])
  have sD := stringToNumber_digits d1 [d2] (by simp [isDigits, gd1, gd2])
  have sH := stringToNumber_digits h1 [h2] (by simp [isDigits, gh1, gh2])
  have sN := stringToNumber_digits n1 [n2] (by simp [isDigits, gn1, gn2])
  have hsplitT : splitChar 'T' [y1, y2, y3, y4, '-', m1, m2, '-', d1, d2, 'T', h1, h2, ':', n1, n2]
      = [[y1, y2, y3, y4, '-', m1, m2, '-', d1, d2], [h1, h2, ':', n1, n2]] := by
    simp [splitChar, ny1.1, ny2.1, ny3.1, ny4.1, nm1.1, nm2.1, nd1.1, nd2.1, nh1.1, nh2.1,
      nn1.1, nn2.1]
  have hsplitD : splitChar '-' [y1, y2, y3, y4, '-', m1, m2, '-', d1, d2]
      = [[y1, y2, y3, y4], [m1, m2], [d1, d2]] := by
    simp [splitChar, ny1.2.1, ny2.2.1, ny3.2.1, ny4.2.1, nm1.2.1, nm2.2.1, nd1.2.1, nd2.2.1]
  have hsplitC : splitChar ':' [h1, h2, ':', n1, n2] = [[h1, h2], [n1, n2]] := by
    simp [splitChar, nh1.2.2.1, nh2.2.2.1, nn1.2.2.1, nn2.2.2.1]
  have hlen : jsLength [y1, y2, y3, y4, '-', m1, m2, '-', d1, d2, 'T', h1, h2, ':', n1, n2]
      = 16 := by
    have b1 := isDigit_bounds y1 gy1
    have b2 := isDigit_bounds y2 gy2
    have b3 := isDigit_bounds y3 gy3
    have b4 := isDigit_bounds y4 gy4
    have b5 := isDigit_bounds m1 gm1
    have b6 := isDigit_bounds m2 gm2
    have b7 := isDigit_bounds d1 gd1
    have b8 := isDigit_bounds d2 gd2
    have b9 := isDigit_bounds h1 gh1
    have b10 := isDigit_bounds h2 gh2
    have b11 := isDigit_bounds n1 gn1
    have b12 := isDigit_bounds n2 gn2
    have c1 : y1.toNat < 65536 := by omega
    have c2 : y2.toNat < 65536 := by omega
    have c3 : y3.toNat < 65536 := by omega
    have c4 : y4.toNat < 65536 := by omega
    have c5 : m1.toNat < 65536 := by omega
    have c6 : m2.toNat < 65536 := by omega
    have c7 : d1.toNat < 65536 := by omega
    have c8 : d2.toNat < 65536 := by omega
    have c9 : h1.toNat < 65536 := by omega
    have c10 : h2.toNat < 65536 := by omega
    have c11 : n1.toNat < 65536 := by omega
    have c12 : n2.toNat < 65536 := by omega
    have k1 : '-'.toNat < 65536 := by decide
    have k2 : 'T'.toNat < 65536 := by decide
    have k3 : ':'.toNat < 65536 := by decide
    simp [jsLength, c1, c2, c3, c4, c5, c6, c7, c8, c9, c10, c11, c12, k1, k2, k3]
  have hcond : ([y1, y2, y3, y4, '-', m1, m2, '-', d1, d2, 'T', h1, h2, ':', n1, n2].contains 'T'
      && decide (16 ≤ jsLength [y1, y2, y3, y4, '-', m1, m2, '-', d1, d2, 'T', h1, h2, ':', n1, n2])
      && decide (jsLength [y1, y2, y3, y4, '-', m1, m2, '-', d1, d2, 'T', h1, h2, ':', n1, n2] ≤ 19)
      && !endsWithChar [y1, y2, y3, y4, '-', m1, m2, '-', d1, d2, 'T', h1, h2, ':', n1, n2] 'Z')
      = true := by
    rw [hlen]
    simp [endsWithChar, nn2.2.2.2.1]
  have hlt : localTime P (utc P t) = t := by
    unfold WallClockExists at hz
    simp only [localTime, hz]
    simp only [utc]
    omega
  have hoff := P.localTZA_bound t false
  obtain ⟨day, e, lo, hi⟩ := wallClock_eq (digitsValue [y1, y2, y3, y4])
    ((digitsValue [m1, m2] : Int) - 1) (digitsValue [d1, d2]) (digitsValue [h1, h2])
    (digitsValue [n1, n2])
  have bY := digitsValue_four_le y1 y2 y3 y4 gy1 gy2 gy3 gy4
  have bM := digitsValue_two_le m1 m2 gm1 gm2
  have bD := digitsValue_two_le d1 d2 gd1 gd2
  have hclip : timeClip (utc P t) = some (utc P t) := by
    rw [← ht] at e
    have hfy : 0 ≤ makeFullYear (digitsValue [y1, y2, y3, y4]) ∧
        makeFullYear (digitsValue [y1, y2, y3, y4]) ≤ 9999 := by
      unfold makeFullYear
      split_ifs <;> omega
    simp only [dayFromYear] at lo hi
    simp only [msPerDay] at hoff
    unfold timeClip utc
    rw [if_pos]
    omega
  have hhm := hour_min_of_wallClock (digitsValue [y1, y2, y3, y4])
    ((digitsValue [m1, m2] : Int) - 1) (digitsValue [d1, d2]) (digitsValue [h1, h2])
    (digitsValue [n1, n2]) (by omega) (by omega)
  rw [← ht] at hhm
  simp only [formatTimestamp, JsValue.truthy, formatTimestampTry, formatTimestampString, hcond,
    hsplitT, hsplitD, hsplitC, List.map, sH, sN, sY, sM, sD, List.getD_cons_zero,
    List.getD_cons_succ, Option.map, newDateLocal, ← ht, hclip, toLocaleDateString,
    toLocaleTimeString, hlt, hhm.1, hhm.2, twoDigits_digits h1 h2 gh1 gh2,
    twoDigits_digits n1 n2 gn1 gn2, bind, Except.bind, pure, Except.pure, if_true]
  simp

/-- C2 (counterexample): in the zone America/Sao_Paulo the input
`2018-11-04T00:30`, a reading inside the skipped hour, is displayed as `01:30`;
and in a zone without transitions the input `2024-01-01T25:00` is displayed as
`01:00`. -/
theorem formatTimestamp_naive_counterexample :
    formatTimestamp saoPaulo2018 (.str "2018-11-04T00:30".toList) = .str "D 01:30".toList ∧
    formatTimestamp utcPlatform (.str "2024-01-01T25:00".toList) = .str "D 01:00".toList :=
  ⟨rfl, rfl⟩

/-- C2 (witness): `2018-11-04T01:30` in America/Sao_Paulo, just after the
skipped hour. -/
theorem formatTimestamp_naive_witness :
    formatTimestamp saoPaulo2018 (.str "2018-11-04T01:30".toList) = .str "D 01:30".toList :=
  formatTimestamp_naive saoPaulo2018 '2' '0' '1' '8' '1' '1' '0' '4' '0' '1' '3' '0'
    1541295000000 (by decide) (by decide) (by decide) (by rfl) (by decide)

/-- C3 (the code at the failing input): when `Date.parse("not-a-date")` is
`NaN`, `formatTimestamp("not-a-date")` does not throw and returns
`"Invalid Date Invalid Date"`, not the input: the locale methods render an
invalid date instead of throwing, so the `catch` fallback is not taken. The
same happens on the local-component branch, whatever the platform, for
`"xxxx-xx-xxTxx:xx"`. -/
theorem formatTimestamp_not_a_date (P : Platform)
    (h : P.dateParse "not-a-date".toList = none) :
    formatTimestamp P (.str "not-a-date".toList) = .str "Invalid Date Invalid Date".toList ∧
    formatTimestamp P (.str "xxxx-xx-xxTxx:xx".toList)
      = .str "Invalid Date Invalid Date".toList := by
  have e : formatTimestampString P "not-a-date".toList
      = .ok "Invalid Date Invalid Date".toList := by
    have hc : ("not-a-date".toList.contains 'T' && decide (16 ≤ jsLength "not-a-date".toList)
        && decide (jsLength "not-a-date".toList ≤ 19) && !endsWithChar "not-a-date".toList 'Z')
        = false := by decide
    simp only [formatTimestampString, hc, h, toLocaleDateString, toLocaleTimeString]
    rfl
  refine ⟨?_, rfl⟩
  simp only [formatTimestamp, formatTimestampTry, e]
  rfl

/-- C3 (witness): a platform whose `Date.parse` rejects the input. -/
theorem formatTimestamp_not_a_date_witness :
    formatTimestamp utcPlatform (.str "not-a-date".toList)
      = .str "Invalid Date Invalid Date".toList :=
  (formatTimestamp_not_a_date utcPlatform rfl).1

/-! ## History, transport, polling, theme and chat -/

theorem sortInsert_perm (cmp : JsValue → JsValue → JsNum) (x : JsValue) (l : List JsValue) :
    (sortInsert cmp x l).Perm (x :: l) := by
  induction l with
  | nil => exact List.Perm.refl _
  | cons y ys ih =>
    simp only [sortInsert]
    split_ifs
    · exact (ih.cons y).trans (List.Perm.swap x y ys)
    · exact List.Perm.refl _

theorem jsSort_perm (cmp : JsValue → JsValue → JsNum) (l : List JsValue) :
    (jsSort cmp l).Perm l := by
  induction l with
  | nil => exact List.Perm.nil
  | cons x xs ih => exact (sortInsert_perm cmp x _).trans (ih.cons x)

theorem sortInsert_pairwise (cmp : JsValue → JsValue → JsNum) (key : JsValue → Int)
    (x : JsValue) (l : List JsValue)
    (hx : ∀ y ∈ l, positive (cmp x y) = decide (key y < key x))
    (hl : l.Pairwise (fun a b => key a ≤ key b)) :
    (sortInsert cmp x l).Pairwise (fun a b => key a ≤ key b) := by
  induction l with
  | nil => simp [sortInsert]
  | cons y ys ih =>
    have hy := hx y (List.mem_cons_self y ys)
    have hys : ∀ b ∈ ys, key y ≤ key b := (List.pairwise_cons.mp hl).1
    have hrest : ys.Pairwise (fun a b => key a ≤ key b) := (List.pairwise_cons.mp hl).2
    simp only [sortInsert]
    by_cases hp : positive (cmp x y) = true
    · rw [if_pos hp]
      rw [hp] at hy
      have hlt : key y < key x := of_decide_eq_true hy.symm
      refine List.pairwise_cons.mpr ⟨?_, ih (fun b hb => hx b (List.mem_cons_of_mem y hb)) hrest⟩
      intro b hb
      rcases List.mem_cons.mp ((sortInsert_perm cmp x ys).mem_iff.mp hb) with e | hb2
      · subst e; omega
      · exact hys b hb2
    · rw [if_neg hp]
      have hf : positive (cmp x y) = false := by simpa using hp
      rw [hf] at hy
      have hge : ¬ key y < key x := of_decide_eq_false hy.symm
      refine List.pairwise_cons.mpr ⟨?_, hl⟩
      intro b hb
      rcases List.mem_cons.mp hb with e | hb2
      · subst e; omega
      · have := hys b hb2; omega

theorem jsSort_pairwise (cmp : JsValue → JsValue → JsNum) (key : JsValue → Int)
    (l : List JsValue)
    (h : ∀ a ∈ l, ∀ b ∈ l, positive (cmp a b) = decide (key b < key a)) :
    (jsSort cmp l).Pairwise (fun a b => key a ≤ key b) := by
  induction l with
  | nil => simp [jsSort]
  | cons x xs ih =>
    have ihx := ih (fun a ha b hb => h a (List.mem_cons_of_mem x ha) b (List.mem_cons_of_mem x hb))
    refine sortInsert_pairwise cmp key x (jsSort cmp xs) ?_ ihx
    intro y hy
    exact h x (List.mem_cons_self x xs) y
      (List.mem_cons_of_mem x ((jsSort_perm cmp xs).mem_iff.mp hy))

theorem instant_nullish (P : Platform) (r : JsValue) (h : r.nullish = true) :
    instant P r = none := by
  cases r <;> simp_all [JsValue.nullish, instant, JsValue.prop, newDate]

theorem cmpNewestFirst_key (P : Platform) (a b : JsValue)
    (ha : (instant P a).isSome = true) (hb : (instant P b).isSome = true) :
    positive (cmpNewestFirst P a b)
      = decide (-((instant P b).getD 0) < -((instant P a).getD 0)) := by
  obtain ⟨ta, ea⟩ := Option.isSome_iff_exists.mp ha
  obtain ⟨tb, eb⟩ := Option.isSome_iff_exists.mp hb
  simp only [cmpNewestFirst, ea, eb, numSub, positive, Option.getD_some]
  congr 1
  apply propext
  constructor <;> intro h <;> omega

theorem cmpOldestFirst_key (P : Platform) (a b : JsValue)
    (ha : (instant P a).isSome = true) (hb : (instant P b).isSome = true) :
    positive (cmpOldestFirst P a b)
      = decide ((instant P b).getD 0 < (instant P a).getD 0) := by
  obtain ⟨ta, ea⟩ := Option.isSome_iff_exists.mp ha
  obtain ⟨tb, eb⟩ := Option.isSome_iff_exists.mp hb
  simp only [cmpOldestFirst, ea, eb, numSub, positive, Option.getD_some]
  congr 1
  apply propext
  constructor <;> intro h <;> omega

theorem registrosOf_perm (P : Platform) (data : List JsValue) :
    (registrosOf P data).Perm data := jsSort_perm _ _

theorem chartDataOf_perm (P : Platform) (data : List JsValue) :
    (chartDataOf P data).Perm data := (jsSort_perm _ _).trans (registrosOf_perm P data)

theorem registrosOf_sorted (P : Platform) (data : List JsValue)
    (hvalid : ∀ r ∈ data, (instant P r).isSome = true) :
    (registrosOf P data).Pairwise (fun a b =>
      ∃ ta tb, instant P a = some ta ∧ instant P b = some tb ∧ tb ≤ ta) := by
  have h := jsSort_pairwise (cmpNewestFirst P) (fun r => -((instant P r).getD 0)) data
    (fun a ha b hb => cmpNewestFirst_key P a b (hvalid a ha) (hvalid b hb))
  refine List.Pairwise.imp_of_mem ?_ h
  intro a b ha hb hab
  obtain ⟨ta, ea⟩ := Option.isSome_iff_exists.mp
    (hvalid a ((registrosOf_perm P data).mem_iff.mp ha))
  obtain ⟨tb, eb⟩ := Option.isSome_iff_exists.mp
    (hvalid b ((registrosOf_perm P data).mem_iff.mp hb))
  refine ⟨ta, tb, ea, eb, ?_⟩
  simp only [ea, eb, Option.getD_some] at hab
  omega

theorem chartDataOf_sorted (P : Platform) (data : List JsValue)
    (hvalid : ∀ r ∈ data, (instant P r).isSome = true) :
    (chartDataOf P data).Pairwise (fun a b =>
      ∃ ta tb, instant P a = some ta ∧ instant P b = some tb ∧ ta ≤ tb) := by
  have hv2 : ∀ r ∈ registrosOf P data, (instant P r).isSome = true :=
    fun r hr => hvalid r ((registrosOf_perm P data).mem_iff.mp hr)
  have h := jsSort_pairwise (cmpOldestFirst P) (fun r => (instant P r).getD 0)
    (registrosOf P data)
    (fun a ha b hb => cmpOldestFirst_key P a b (hv2 a ha) (hv2 b hb))
  refine List.Pairwise.imp_of_mem ?_ h
  intro a b ha hb hab
  obtain ⟨ta, ea⟩ := Option.isSome_iff_exists.mp
    (hvalid a ((chartDataOf_perm P data).mem_iff.mp ha))
  obtain ⟨tb, eb⟩ := Option.isSome_iff_exists.mp
    (hvalid b ((chartDataOf_perm P data).mem_iff.mp hb))
  refine ⟨ta, tb, ea, eb, ?_⟩
  simp only [ea, eb, Option.getD_some] at hab
  exact hab

theorem destroyChart_fields (w : World) :
    (destroyChart w).nextChart = w.nextChart ∧ (destroyChart w).historicoBody = w.historicoBody ∧
    (destroyChart w).bodyDark = w.bodyDark ∧ (destroyChart w).storage = w.storage ∧
    (destroyChart w).requests = w.requests := by
  rcases w with ⟨st, cpt, iv, nh, gc, ch, nc, bd, ti, tl, tc, pn, hb, gg, cl, cb, ci, rq, al⟩
  cases gc <;> exact ⟨rfl, rfl, rfl, rfl, rfl⟩

theorem destroyChart_historicoBody (w : World) (body : Option JsString) :
    destroyChart { w with historicoBody := body }
      = { destroyChart w with historicoBody := body } := by
  rcases w with ⟨st, cpt, iv, nh, gc, ch, nc, bd, ti, tl, tc, pn, hb, gg, cl, cb, ci, rq, al⟩
  cases gc <;> rfl

theorem plain_coercible (v : JsValue) (h : v.plain = true) : v.coercible = true := by
  cases v <;> first | rfl | (simp [JsValue.plain] at h)

theorem timestampPlain_coercible (v : JsValue) (h : timestampPlain v = true) :
    v.coercible = true := by
  cases v <;> first | rfl | (simp [timestampPlain, JsValue.plain] at h)

theorem formatTimestamp_coercible (P : Platform) (v : JsValue) (h : v.coercible = true) :
    (formatTimestamp P v).coercible = true := by
  unfold formatTimestamp
  split_ifs
  · rfl
  · split
    · rfl
    · exact h

theorem registroPlain_renders (P : Platform) (r : JsValue) (h : registroPlain r = true) :
    registroRenders P r = true ∧ (r.prop "timestamp").coercible = true := by
  simp only [registroPlain, Bool.and_eq_true] at h
  obtain ⟨⟨⟨⟨h1, h2⟩, h3⟩, h4⟩, h5⟩ := h
  have c1 := formatTimestamp_coercible P _ (timestampPlain_coercible _ h1)
  have c3 := formatTimestamp_coercible P _ (timestampPlain_coercible _ h3)
  have c4 := formatTimestamp_coercible P _ (timestampPlain_coercible _ h4)
  refine ⟨?_, timestampPlain_coercible _ h1⟩
  simp only [registroRenders, c1, plain_coercible _ h2, c3, c4, plain_coercible _ h5,
    Bool.or_true, Bool.and_self]

theorem registroPlain_checks (P : Platform) (data : List JsValue)
    (hplain : ∀ r ∈ data, registroPlain r = true) :
    timestampsCompare data = true ∧ data.all (registroRenders P) = true := by
  constructor
  · simp only [timestampsCompare, Bool.or_eq_true, decide_eq_true_eq, List.all_eq_true]
    exact Or.inr (fun r hr => (registroPlain_renders P r (hplain r hr)).2)
  · rw [List.all_eq_true]
    exact fun r hr => (registroPlain_renders P r (hplain r hr)).1

/-- C4: for every fetched array of records whose timestamps are valid dates and
whose rendered fields are primitives, the table order is a permutation of the
array in non-increasing order of instant and the chart order is a permutation
in non-decreasing order; the call completes without an exception, the table
markup is the rows of the table order, the chart is created with the
labels and the values of the chart order, read from the same records; and for
the records of 1 and 2 January the table has 2 January first and the chart
data are 100 then 120. -/
theorem carregarHistorico_orderings (P : Platform) (w : World) (status : Nat)
    (data : List JsValue) (hvalid : ∀ r ∈ data, (instant P r).isSome = true)
    (hplain : ∀ r ∈ data, registroPlain r = true) :
    (registrosOf P data).Perm data ∧
    (registrosOf P data).Pairwise (fun a b =>
      ∃ ta tb, instant P a = some ta ∧ instant P b = some tb ∧ tb ≤ ta) ∧
    (chartDataOf P data).Perm data ∧
    (chartDataOf P data).Pairwise (fun a b =>
      ∃ ta tb, instant P a = some ta ∧ instant P b = some tb ∧ ta ≤ tb) ∧
    (carregarHistoricoResume P
        { ok := true, status := status, data := .arr data, error := none } w).thrown = none ∧
    (carregarHistoricoResume P
        { ok := true, status := status, data := .arr data, error := none } w).world.historicoBody
      = w.historicoBody.map (fun _ => ((registrosOf P data).map (renderRegistro P)).flatten) ∧
    ((w.graficoGlicemia && w.chartLibrary && !P.chartFails w.nextChart) = true →
      (carregarHistoricoResume P
          { ok := true, status := status, data := .arr data, error := none } w).world.charts
        = (destroyChart w).charts ++ [(w.nextChart,
            { labels := (chartDataOf P data).map (fun r => formatTimestamp P (r.prop "timestamp"))
              data := (chartDataOf P data).map (fun r => r.prop "value")
              borderColor := (chartConfigOf P w.bodyDark data).borderColor
              backgroundColor := (chartConfigOf P w.bodyDark data).backgroundColor
              gridColor := (chartConfigOf P w.bodyDark data).gridColor
              tickColor := (chartConfigOf P w.bodyDark data).tickColor })]) ∧
    registrosOf examplePlatform [recordJan1, recordJan2] = [recordJan2, recordJan1] ∧
    chartDataOf examplePlatform [recordJan1, recordJan2] = [recordJan1, recordJan2] ∧
    (chartConfigOf examplePlatform false [recordJan1, recordJan2]).data
      = [.num 100, .num 120] := by
  have hnn : data.any JsValue.nullish = false := by
    rw [List.any_eq_false]
    intro r hr hn
    have := hvalid r hr
    rw [instant_nullish P r hn] at this
    simp at this
  obtain ⟨hcmp, hren⟩ := registroPlain_checks P data hplain
  refine ⟨registrosOf_perm P data, registrosOf_sorted P data hvalid, chartDataOf_perm P data,
    chartDataOf_sorted P data hvalid, ?_, ?_, ?_, rfl, rfl, rfl⟩
  · rcases w with ⟨st, cpt, iv, nh, gc, ch, nc, bd, ti, tl, tc, pn, hb, gg, cl, cb, ci, rq, al⟩
    simp only [carregarHistoricoResume, hnn, hcmp, hren, Bool.false_eq_true, if_false,
      Bool.not_true, Bool.and_false]
    split_ifs <;> rfl
  · rcases w with ⟨st, cpt, iv, nh, gc, ch, nc, bd, ti, tl, tc, pn, hb, gg, cl, cb, ci, rq, al⟩
    simp only [carregarHistoricoResume, hnn, hcmp, hren, Bool.false_eq_true, if_false,
      Bool.not_true, Bool.and_false]
    cases gc <;> (split_ifs <;> rfl)
  · intro h
    rcases w with ⟨st, cpt, iv, nh, gc, ch, nc, bd, ti, tl, tc, pn, hb, gg, cl, cb, ci, rq, al⟩
    simp only [Bool.and_eq_true, Bool.not_eq_true'] at h
    obtain ⟨⟨h1, h2⟩, h3⟩ := h
    subst h1 h2
    cases gc <;>
      simp [carregarHistoricoResume, hnn, hcmp, hren, destroyChart, h3, chartConfigOf]

/-- C4 (witness): the two example records on the example page. -/
theorem carregarHistorico_orderings_witness :
    (carregarHistoricoResume examplePlatform
        { ok := true, status := 200, data := .arr [recordJan1, recordJan2], error := none }
        emptyPage).thrown = none :=
  (carregarHistorico_orderings examplePlatform emptyPage 200 [recordJan1, recordJan2]
    (by
      intro r hr
      simp only [List.mem_cons, List.mem_singleton, List.not_mem_nil, or_false] at hr
      rcases hr with rfl | rfl <;> rfl)
    (by
      intro r hr
      simp only [List.mem_cons, List.mem_singleton, List.not_mem_nil, or_false] at hr
      rcases hr with rfl | rfl <;> decide)).2.2.2.2.1

/-- C5: `apiFetch` resolves to a result object for every behaviour of the
transport. A rejected `fetch` is the one exception of the `try` block and
becomes `ok = false`, `status = 0`, `data = null` with the error attached; for
a response the block completes, `ok` holds exactly for a status in 200..299
and `status` is the HTTP status. -/
theorem apiFetch_never_raises :
    (∀ (P : Platform) (err : JsError),
      apiFetchTry P (.rejected err) = .error err ∧
      apiResult P (.rejected err)
        = { ok := false, status := 0, data := .null, error := some err }) ∧
    (∀ (P : Platform) (status : Nat) (text : Option JsString),
      apiFetchTry P (.response status text) = .ok (apiResult P (.response status text)) ∧
      ((apiResult P (.response status text)).ok = true ↔ (200 ≤ status ∧ status ≤ 299)) ∧
      (apiResult P (.response status text)).status = status ∧
      (apiResult P (.response status text)).error = none) ∧
    (∀ (T : Transport) (P : Platform) (w : World) (endpoint method : JsString)
        (body : Option ApiBody),
      (apiFetch T P w endpoint method body).1
        = apiResult P (T w.requests (apiRequest w endpoint method body))) := by
  refine ⟨fun P err => ⟨rfl, rfl⟩, ?_, fun _ _ _ _ _ _ => rfl⟩
  intro P status text
  refine ⟨rfl, ?_, rfl, rfl⟩
  show statusOk status = true ↔ _
  simp [statusOk]

theorem apiHeaders_eq (w : World) (body : Option ApiBody) :
    apiHeaders w body =
      (match body with
        | some .formData => []
        | _ => [("Content-Type".toList, "application/json".toList)]) ++
      (match w.storage.getItem TOKEN_KEY with
        | some token =>
          if token = [] then [] else [("Authorization".toList, "Bearer ".toList ++ token)]
        | none => []) := by
  unfold apiHeaders getToken
  cases w.storage.getItem TOKEN_KEY with
  | none => simp
  | some token =>
    cases token with
    | nil => simp
    | cons c cs => simp

/-- C6 (amended): the headers of an `apiFetch` request are `Content-Type:
application/json` exactly when the body is not a form payload, then
`Authorization: Bearer <token>` exactly when `localStorage` holds a non-empty
string under the token key, and nothing else. -/
theorem apiFetch_headers (w : World) (endpoint method : JsString) (body : Option ApiBody) :
    (("Content-Type".toList, "application/json".toList) ∈
        (apiRequest w endpoint method body).headers ↔ ¬ body = some .formData) ∧
    (∀ value : JsString, ("Authorization".toList, value) ∈
        (apiRequest w endpoint method body).headers ↔
      ∃ token, w.storage.getItem TOKEN_KEY = some token ∧ token ≠ [] ∧
        value = "Bearer ".toList ++ token) ∧
    (apiRequest w endpoint method body).headers =
      (match body with
        | some .formData => []
        | _ => [("Content-Type".toList, "application/json".toList)]) ++
      (match w.storage.getItem TOKEN_KEY with
        | some token =>
          if token = [] then [] else [("Authorization".toList, "Bearer ".toList ++ token)]
        | none => []) := by
  have e : (apiRequest w endpoint method body).headers = apiHeaders w body := rfl
  rw [e, apiHeaders_eq]
  refine ⟨?_, ?_, rfl⟩
  · rcases body with _ | _ | v <;> cases w.storage.getItem TOKEN_KEY with
    | none => simp
    | some token => by_cases ht : token = [] <;> simp [ht]
  · intro value
    rcases body with _ | _ | v <;> cases w.storage.getItem TOKEN_KEY with
    | none => simp
    | some token => by_cases ht : token = [] <;> simp [ht]

/-- C6 (counterexample): with the empty string stored under the token key, a
value is present in the store and no `Authorization` header is sent. -/
theorem apiFetch_headers_counterexample :
    getToken { emptyPage with storage := [(TOKEN_KEY, [])] } = some [] ∧
    (apiRequest { emptyPage with storage := [(TOKEN_KEY, [])] }
        "/api/records".toList "GET".toList none).headers
      = [("Content-Type".toList, "application/json".toList)] := by
  decide

theorem startChatPolling_timer (w : World)
    (hcase : (w.chatPollTimer = none ∧ w.intervals = []) ∨
      ∃ t, 0 < t ∧ w.chatPollTimer = some t ∧ w.intervals = [t]) :
    (startChatPolling w).intervals = [w.nextHandle] ∧
    (startChatPolling w).chatPollTimer = some w.nextHandle ∧
    (startChatPolling w).nextHandle = w.nextHandle + 1 := by
  rcases w with ⟨st, cpt, iv, nh, gc, ch, nc, bd, ti, tl, tc, pn, hb, gg, cl, cb, ci, rq, al⟩
  rcases hcase with ⟨h1, h2⟩ | ⟨t, ht, h1, h2⟩
  · simp only at h1 h2
    subst h1 h2
    cases cb <;> simp [startChatPolling, carregarChatBegin]
  · simp only at h1 h2
    subst h1 h2
    have hne : t ≠ 0 := by omega
    cases cb <;> simp [startChatPolling, carregarChatBegin, clearInterval, hne]

theorem stopChatPolling_timer (w : World)
    (hcase : (w.chatPollTimer = none ∧ w.intervals = []) ∨
      ∃ t, 0 < t ∧ w.chatPollTimer = some t ∧ w.intervals = [t]) :
    (stopChatPolling w).intervals = [] ∧ (stopChatPolling w).chatPollTimer = none ∧
    (stopChatPolling w).nextHandle = w.nextHandle := by
  rcases w with ⟨st, cpt, iv, nh, gc, ch, nc, bd, ti, tl, tc, pn, hb, gg, cl, cb, ci, rq, al⟩
  rcases hcase with ⟨h1, h2⟩ | ⟨t, ht, h1, h2⟩
  · simp only at h1 h2
    subst h1 h2
    simp [stopChatPolling]
  · simp only at h1 h2
    subst h1 h2
    have hne : t ≠ 0 := by omega
    simp [stopChatPolling, clearInterval, hne]

/-- The invariant of the polling state: no timer and no handle, or exactly the
one timer whose handle `_chatPollTimer` holds. -/
theorem poll_invariant (w : World) (h : PollReachable w) :
    0 < w.nextHandle ∧
    ((w.chatPollTimer = none ∧ w.intervals = []) ∨
      ∃ t, 0 < t ∧ w.chatPollTimer = some t ∧ w.intervals = [t]) := by
  induction h with
  | init w hTimer hNone hPos => exact ⟨hPos, Or.inl ⟨hTimer, hNone⟩⟩
  | start w _ ih =>
    obtain ⟨hpos, hcase⟩ := ih
    obtain ⟨e1, e2, e3⟩ := startChatPolling_timer w hcase
    exact ⟨by omega, Or.inr ⟨w.nextHandle, hpos, e2, e1⟩⟩
  | stop w _ ih =>
    obtain ⟨hpos, hcase⟩ := ih
    obtain ⟨e1, e2, e3⟩ := stopChatPolling_timer w hcase
    exact ⟨by omega, Or.inl ⟨e2, e1⟩⟩

/-- C7: in every state reachable by `startChatPolling` and `stopChatPolling`
calls at most one interval timer is active and `_chatPollTimer` holds its
handle; after `startChatPolling`, once or twice in succession, exactly one is
active; after `stopChatPolling` none is; and `stopChatPolling` without a timer
changes nothing. -/
theorem chatPolling_single_timer (w : World) (h : PollReachable w) :
    w.intervals.length ≤ 1 ∧
    (∀ t ∈ w.intervals, w.chatPollTimer = some t) ∧
    (∃ t, (startChatPolling w).intervals = [t] ∧ (startChatPolling w).chatPollTimer = some t) ∧
    (∃ t, (startChatPolling (startChatPolling w)).intervals = [t] ∧
      (startChatPolling (startChatPolling w)).chatPollTimer = some t) ∧
    (stopChatPolling w).intervals = [] ∧ (stopChatPolling w).chatPollTimer = none ∧
    (w.chatPollTimer = none → stopChatPolling w = w) := by
  obtain ⟨hpos, hcase⟩ := poll_invariant w h
  obtain ⟨s1, s2, _⟩ := startChatPolling_timer w hcase
  obtain ⟨hpos2, hcase2⟩ := poll_invariant _ (PollReachable.start w h)
  obtain ⟨d1, d2, _⟩ := startChatPolling_timer _ hcase2
  obtain ⟨p1, p2, _⟩ := stopChatPolling_timer w hcase
  refine ⟨?_, ?_, ⟨_, s1, s2⟩, ⟨_, d1, d2⟩, p1, p2, ?_⟩
  · rcases hcase with ⟨_, h2⟩ | ⟨t, _, _, h2⟩ <;> simp [h2]
  · intro t ht
    rcases hcase with ⟨_, h2⟩ | ⟨u, _, h1, h2⟩
    · simp [h2] at ht
    · simp [h2] at ht
      rw [h1, ht]
  · intro hnone
    unfold stopChatPolling
    rw [hnone]

/-- C7 (witness): the example page after one `startChatPolling`. -/
theorem chatPolling_single_timer_witness :
    (stopChatPolling (startChatPolling emptyPage)).intervals = [] :=
  (chatPolling_single_timer (startChatPolling emptyPage)
    (PollReachable.start emptyPage
      (PollReachable.init emptyPage rfl rfl (by decide)))).2.2.2.2.1

theorem storage_getItem_setItem (st : Storage) (key value : JsString) :
    (st.setItem key value).getItem key = some value := by
  simp [Storage.getItem, Storage.setItem, List.find?]

theorem saveTheme_fields (theme : JsString) (w : World) :
    (saveTheme theme w).storage = w.storage.setItem THEME_KEY theme ∧
    (saveTheme theme w).bodyDark = decide (theme = "dark".toList) := by
  unfold saveTheme
  simp only [applyTheme, carregarHistoricoBegin]
  split_ifs <;> exact ⟨rfl, rfl⟩

/-- C10 (amended): `toggleTheme` persists the opposite of the applied theme
(`light` when the body has the class `dark`, `dark` otherwise), whatever is
stored, and the applied theme after the call is the persisted one. -/
theorem toggleTheme_flips (w : World) :
    (toggleTheme w).storage.getItem THEME_KEY
      = some (if w.bodyDark then "light".toList else "dark".toList) ∧
    (toggleTheme w).bodyDark = !w.bodyDark ∧
    ((toggleTheme w).bodyDark = true ↔
      (toggleTheme w).storage.getItem THEME_KEY = some "dark".toList) := by
  unfold toggleTheme
  cases hb : w.bodyDark
  · simp only [Bool.false_eq_true, if_false]
    have e : (if "light".toList = "dark".toList then "light".toList else "dark".toList)
        = "dark".toList := by decide
    rw [e]
    obtain ⟨f1, f2⟩ := saveTheme_fields "dark".toList w
    rw [f1, f2, storage_getItem_setItem]
    simp
  · simp only [if_true]
    obtain ⟨f1, f2⟩ := saveTheme_fields "light".toList w
    rw [f1, f2, storage_getItem_setItem]
    simp

/-- C10 (counterexample): with `light` stored and the class `dark` applied,
`toggleTheme` persists `light`; with `dark` stored and the class not applied,
it persists `dark`. -/
theorem toggleTheme_counterexample :
    ({ emptyPage with storage := [(THEME_KEY, "light".toList)], bodyDark := true } : World).storage.getItem
        THEME_KEY = some "light".toList ∧
    (toggleTheme { emptyPage with storage := [(THEME_KEY, "light".toList)], bodyDark := true }
      ).storage.getItem THEME_KEY = some "light".toList ∧
    ({ emptyPage with storage := [(THEME_KEY, "dark".toList)], bodyDark := false } : World).storage.getItem
        THEME_KEY = some "dark".toList ∧
    (toggleTheme { emptyPage with storage := [(THEME_KEY, "dark".toList)], bodyDark := false }
      ).storage.getItem THEME_KEY = some "dark".toList := by
  decide

theorem escapeHtml_flatMap (v : JsValue) (h : v.nullish = false) :
    escapeHtml v = v.toStr.flatMap escapeChar := by
  have key : ∀ s : JsString,
      replaceAll (replaceAll (replaceAll (replaceAll (replaceAll s ['&'] "&amp;".toList)
        ['<'] "&lt;".toList) ['>'] "&gt;".toList) [dquote] "&quot;".toList)
        [apostrophe] "&#039;".toList = s.flatMap escapeChar := by
    intro s
    have := escapeHtml_str s
    simpa [escapeHtml, JsValue.toStr] using this
  cases v with
  | undefined => simp [JsValue.nullish] at h
  | null => simp [JsValue.nullish] at h
  | bool b => exact key _
  | num n => exact key _
  | str s => exact key _
  | arr items => exact key _
  | obj fields => exact key _

theorem escapeChar_token (c : Char) :
    IsEntity (escapeChar c) ∨ ∃ d, escapeChar c = [d] ∧ IsPlainChar d := by
  unfold escapeChar IsEntity
  split_ifs with h1 h2 h3 h4 h5
  · exact Or.inl (Or.inl rfl)
  · exact Or.inl (Or.inr (Or.inl rfl))
  · exact Or.inl (Or.inr (Or.inr (Or.inl rfl)))
  · exact Or.inl (Or.inr (Or.inr (Or.inr (Or.inl rfl))))
  · exact Or.inl (Or.inr (Or.inr (Or.inr (Or.inr rfl))))
  · exact Or.inr ⟨c, rfl, h1, h2, h3, h4, h5⟩

theorem escapeHtml_escaped (v : JsValue) : Escaped (escapeHtml v) := by
  by_cases h : v.nullish = true
  · refine ⟨[], ?_, by simp⟩
    cases v <;> simp_all [JsValue.nullish, escapeHtml]
  · have hf : v.nullish = false := by simpa using h
    refine ⟨v.toStr.map escapeChar, ?_, ?_⟩
    · rw [escapeHtml_flatMap v hf]
      rfl
    · intro t ht
      obtain ⟨c, _, rfl⟩ := List.mem_map.mp ht
      exact escapeChar_token c

theorem mensagemPlain_renders (P : Platform) (m : JsValue) (h : mensagemPlain m = true) :
    m.nullish = false ∧ mensagemRenders P m = true := by
  simp only [mensagemPlain, Bool.and_eq_true, Bool.not_eq_true'] at h
  obtain ⟨⟨⟨h0, h1⟩, h2⟩, h3⟩ := h
  refine ⟨h0, ?_⟩
  simp only [mensagemRenders, plain_coercible _ h1, plain_coercible _ h3,
    formatTimestamp_coercible P _ (timestampPlain_coercible _ h2), Bool.and_self]

/-- C8: when the message list is fetched (a 2xx response whose text parses to
an array of non-null messages whose username, timestamp and content are
primitives), `carregarChat` completes without an exception and replaces the
feed with the concatenation of one block per message in fetched order; each
block carries
`escapeHtml(m.username)` and `escapeHtml(m.content)`, and the output of
`escapeHtml` is a sequence of entities and plain characters for every value. -/
theorem carregarChat_renders (T : Transport) (P : Platform) (w : World) (box : ChatBox)
    (status : Nat) (text : JsString) (msgs : List JsValue)
    (hbox : w.chatBox = some box)
    (hT : T w.requests (apiRequest w "/api/chat/messages".toList "GET".toList none)
      = .response status (some text))
    (hok : 200 ≤ status ∧ status ≤ 299) (hne : text ≠ [])
    (hparse : P.jsonParse text = .ok (.arr msgs))
    (hplain : ∀ m ∈ msgs, mensagemPlain m = true) :
    (carregarChat T P w).thrown = none ∧
    (carregarChat T P w).world.chatBox
      = some { innerHTML := (msgs.map (renderMensagem P)).flatten
               scrollTop := P.scrollHeight (msgs.map (renderMensagem P)).flatten } ∧
    (∀ m : JsValue, renderMensagem P m =
      "\n        <div class=\"msg\">\n            <strong>".toList
        ++ escapeHtml (m.prop "username")
        ++ "</strong>\n            <small>".toList
        ++ (formatTimestamp P (m.prop "timestamp")).toStr
        ++ "</small>\n            <p>".toList
        ++ escapeHtml (m.prop "content")
        ++ "</p>\n        </div>\n    ".toList) ∧
    (∀ m : JsValue, Escaped (escapeHtml (m.prop "username")) ∧
      Escaped (escapeHtml (m.prop "content"))) := by
  have hnn : msgs.any JsValue.nullish = false := by
    rw [List.any_eq_false]
    intro m hm hn
    rw [(mensagemPlain_renders P m (hplain m hm)).1] at hn
    exact absurd hn (by decide)
  have hren : msgs.all (mensagemRenders P) = true := by
    rw [List.all_eq_true]
    exact fun m hm => (mensagemPlain_renders P m (hplain m hm)).2
  have hres : apiResult P (.response status (some text))
      = { ok := true, status := status, data := .arr msgs, error := none } := by
    have hte : text.isEmpty = false := by
      cases text with
      | nil => exact absurd rfl hne
      | cons c cs => rfl
    have hs : statusOk status = true := by simp [statusOk, hok]
    simp [apiResult, apiFetchTry, hte, hparse, hs, bind, Except.bind, pure, Except.pure]
  have hrun : carregarChat T P w = carregarChatResume P
      { ok := true, status := status, data := .arr msgs, error := none }
      { w with requests := w.requests ++
          [apiRequest w "/api/chat/messages".toList "GET".toList none] } := by
    unfold carregarChat
    rw [hbox]
    simp only [apiFetch]
    rw [hT, hres, hbox]
  rw [hrun]
  refine ⟨?_, ?_, fun m => rfl, fun m => ⟨escapeHtml_escaped _, escapeHtml_escaped _⟩⟩
  · simp only [carregarChatResume, hnn, hren, Bool.not_true, Bool.false_eq_true, if_false]
  · simp only [carregarChatResume, hnn, hren, Bool.not_true, Bool.false_eq_true, if_false,
      hbox, Option.map_some']

/-- C8 (witness): the one-message feed on the example page. -/
theorem carregarChat_renders_witness :
    (carregarChat chatExampleTransport chatExamplePlatform emptyPage).thrown = none :=
  (carregarChat_renders chatExampleTransport chatExamplePlatform emptyPage
    { innerHTML := [], scrollTop := 0 } 200 chatExampleText chatExampleData rfl rfl
    (by decide) (by decide) (by rfl)
    (by
      intro m hm
      simp only [chatExampleData, List.mem_singleton] at hm
      subst hm
      decide)).1

theorem carregarChatResume_requests (P : Platform) (res : ApiResult) (w : World) :
    (carregarChatResume P res w).world.requests = w.requests := by
  unfold carregarChatResume
  split_ifs
  · rfl
  · split
    · split_ifs <;> rfl
    · rfl

theorem isPost_apiRequest (w : World) (endpoint method : JsString) (body : Option ApiBody) :
    isPost (apiRequest w endpoint method body) = decide (method = "POST".toList) := rfl

theorem carregarChat_requests (T : Transport) (P : Platform) (w : World) :
    (carregarChat T P w).world.requests.filter isPost = w.requests.filter isPost := by
  unfold carregarChat
  cases w.chatBox with
  | none => rfl
  | some box =>
    simp only [carregarChatResume_requests, apiFetch, List.filter_append, List.filter_cons,
      isPost_apiRequest, List.filter_nil]
    have hd : decide ("GET".toList = "POST".toList) = false := by decide
    rw [hd]
    simp

theorem enviarMensagem_eq (T : Transport) (P : Platform) (w : World)
    (h : trim (chatInputText w) ≠ []) :
    enviarMensagem T P w =
      if !(apiResult P (T w.requests (mensagemRequest w))).ok then
        { world := { mensagemSent w with
            alerts := w.alerts ++
              [orElse ((apiResult P (T w.requests (mensagemRequest w))).data.optProp "message")
                "Erro ao enviar mensagem".toList] }
          thrown := none }
      else carregarChat T P { mensagemSent w with chatInput := w.chatInput.map (fun _ => []) } := by
  have e : (match w.chatInput with
      | some value => value
      | none => []) = chatInputText w := rfl
  have hmsg : chatInputText w ≠ [] := by
    intro e0
    rw [e0] at h
    exact h rfl
  have hcond : ((chatInputText w).isEmpty || (trim (chatInputText w)).isEmpty) = false := by
    cases h1 : chatInputText w with
    | nil => exact absurd h1 hmsg
    | cons c cs =>
      cases h2 : trim (c :: cs) with
      | nil => rw [h1] at h; exact absurd h2 h
      | cons d ds => rfl
  unfold enviarMensagem
  simp only [e, hcond, Bool.false_eq_true, if_false]
  rfl

/-- C9: when the trimmed text of `#chatInput` is empty `enviarMensagem` returns
with the state unchanged (no request); otherwise it sends one `POST` to
`/api/chat/messages` whose `content` is the trimmed text, a failed result
leaves the input as it is (an alert is shown), a successful one clears the
input and runs `carregarChat` once, and in both cases that `POST` is the only
one added. -/
theorem enviarMensagem_spec (T : Transport) (P : Platform) (w : World) :
    (trim (chatInputText w) = [] → enviarMensagem T P w = { world := w, thrown := none }) ∧
    (trim (chatInputText w) ≠ [] →
      (mensagemRequest w).url = API_BASE_URL ++ "/api/chat/messages".toList ∧
      (mensagemRequest w).method = "POST".toList ∧
      (mensagemRequest w).body
        = some (.jsonOf (.obj [("content".toList, .str (trim (chatInputText w)))])) ∧
      ((apiResult P (T w.requests (mensagemRequest w))).ok = false →
        enviarMensagem T P w =
          { world := { mensagemSent w with
              alerts := w.alerts ++
                [orElse ((apiResult P (T w.requests (mensagemRequest w))).data.optProp "message")
                  "Erro ao enviar mensagem".toList] }
            thrown := none }) ∧
      ((apiResult P (T w.requests (mensagemRequest w))).ok = true →
        enviarMensagem T P w = carregarChat T P { mensagemSent w with chatInput := some [] }) ∧
      (enviarMensagem T P w).world.requests.filter isPost
        = w.requests.filter isPost ++ [mensagemRequest w]) := by
  constructor
  · intro h
    unfold enviarMensagem
    have e : (match w.chatInput with
        | some value => value
        | none => []) = chatInputText w := rfl
    simp only [e, h, List.isEmpty_nil, Bool.or_true, if_true]
  · intro h
    have hmsg : chatInputText w ≠ [] := by
      intro e0
      rw [e0] at h
      exact h rfl
    obtain ⟨value, hv⟩ : ∃ value, w.chatInput = some value := by
      cases hc : w.chatInput with
      | none => simp [chatInputText, hc] at hmsg
      | some value => exact ⟨value, rfl⟩
    have hpost : isPost (mensagemRequest w) = true := by
      unfold mensagemRequest
      rw [isPost_apiRequest]
      decide
    have hfilter : (mensagemSent w).requests.filter isPost
        = w.requests.filter isPost ++ [mensagemRequest w] := by
      simp only [mensagemSent, List.filter_append, List.filter_cons, hpost, if_true,
        List.filter_nil]
    refine ⟨rfl, rfl, rfl, ?_, ?_, ?_⟩
    · intro hok
      rw [enviarMensagem_eq T P w h, hok]
      rfl
    · intro hok
      rw [enviarMensagem_eq T P w h, hok, hv]
      rfl
    · rw [enviarMensagem_eq T P w h]
      cases hok : (apiResult P (T w.requests (mensagemRequest w))).ok
      · simp only [Bool.not_false, if_true]
        exact hfilter
      · simp only [Bool.not_true, Bool.false_eq_true, if_false]
        rw [carregarChat_requests]
        exact hfilter

/-! ## Theme at startup, chart ownership, measurement form, payload checks -/

theorem applyTheme_fields (theme : JsString) (w : World) :
    (applyTheme theme w).storage = w.storage ∧
    (applyTheme theme w).bodyDark = decide (theme = "dark".toList) := ⟨rfl, rfl⟩

/-- C11: `loadTheme` writes nothing to the store; with `dark` stored it applies
dark and with `light` stored it applies light, whatever the system reports;
with nothing stored it applies dark exactly when the system reports a dark
colour scheme, and light otherwise. Any other non-empty stored text is handed
to `applyTheme` (which applies light), and a stored empty string counts as
nothing stored. -/
theorem loadTheme_resolution (matchMedia : Option Bool) (w : World) :
    (loadTheme matchMedia w).storage = w.storage ∧
    (w.storage.getItem THEME_KEY = some "dark".toList →
      (loadTheme matchMedia w).bodyDark = true) ∧
    (w.storage.getItem THEME_KEY = some "light".toList →
      (loadTheme matchMedia w).bodyDark = false) ∧
    (w.storage.getItem THEME_KEY = none →
      (loadTheme matchMedia w).bodyDark = decide (matchMedia = some true)) ∧
    (∀ saved : JsString, saved ≠ [] → w.storage.getItem THEME_KEY = some saved →
      (loadTheme matchMedia w).bodyDark = decide (saved = "dark".toList)) ∧
    (w.storage.getItem THEME_KEY = some [] →
      (loadTheme matchMedia w).bodyDark = decide (matchMedia = some true)) := by
  have hsys : ∀ mm : Option Bool,
      ((match mm with
        | some true => applyTheme "dark".toList w
        | _ => applyTheme "light".toList w).storage = w.storage) ∧
      ((match mm with
        | some true => applyTheme "dark".toList w
        | _ => applyTheme "light".toList w).bodyDark = decide (mm = some true)) := by
    intro mm
    rcases mm with _ | _ | _ <;> exact ⟨rfl, rfl⟩
  have hgen : ∀ saved : JsString, saved ≠ [] → w.storage.getItem THEME_KEY = some saved →
      (loadTheme matchMedia w).bodyDark = decide (saved = "dark".toList) := by
    intro saved hne hs
    unfold loadTheme
    rw [hs]
    cases saved with
    | nil => exact absurd rfl hne
    | cons c cs => rfl
  refine ⟨?_, ?_, ?_, ?_, hgen, ?_⟩
  · unfold loadTheme
    cases hs : w.storage.getItem THEME_KEY with
    | none => exact (hsys matchMedia).1
    | some saved =>
      cases saved with
      | nil => exact (hsys matchMedia).1
      | cons c cs => rfl
  · intro hs
    rw [hgen _ (by decide) hs]
    decide
  · intro hs
    rw [hgen _ (by decide) hs]
    decide
  · intro hs
    unfold loadTheme
    rw [hs]
    exact (hsys matchMedia).2
  · intro hs
    unfold loadTheme
    rw [hs]
    exact (hsys matchMedia).2

theorem destroyChart_clears (w : World)
    (hinv : (w.glicemiaChart = none ∧ w.charts = []) ∨
      ∃ c cfg, w.glicemiaChart = some c ∧ w.charts = [(c, cfg)]) :
    (destroyChart w).glicemiaChart = none ∧ (destroyChart w).charts = [] := by
  rcases w with ⟨st, cpt, iv, nh, gc, ch, nc, bd, ti, tl, tc, pn, hb, gg, cl, cb, ci, rq, al⟩
  rcases hinv with ⟨h1, h2⟩ | ⟨c, cfg, h1, h2⟩
  · simp only at h1 h2
    subst h1 h2
    exact ⟨rfl, rfl⟩
  · simp only at h1 h2
    subst h1 h2
    simp [destroyChart]

theorem carregarHistoricoResume_failure (P : Platform) (res : ApiResult) (w : World)
    (hfail : res.ok = false ∨ res.data.isArray = false) :
    carregarHistoricoResume P res w =
      { world := destroyChart { w with
          historicoBody := w.historicoBody.map (fun _ =>
            "<tr><td colspan='5'>Nenhum registro.</td></tr>".toList) }
        thrown := none } := by
  rcases res with ⟨ok, status, data, err⟩
  rcases hfail with h | h
  · simp only at h
    subst h
    rfl
  · cases data <;> first | rfl | (cases ok <;> first | rfl | (simp [JsValue.isArray] at h))

theorem carregarHistoricoResume_chart (P : Platform) (res : ApiResult) (w : World)
    (hinv : (w.glicemiaChart = none ∧ w.charts = []) ∨
      ∃ c cfg, w.glicemiaChart = some c ∧ w.charts = [(c, cfg)]) :
    ((carregarHistoricoResume P res w).world.glicemiaChart = none ∧
        (carregarHistoricoResume P res w).world.charts = []) ∨
      ∃ c cfg, (carregarHistoricoResume P res w).world.glicemiaChart = some c ∧
        (carregarHistoricoResume P res w).world.charts = [(c, cfg)] := by
  by_cases hfail : res.ok = false ∨ res.data.isArray = false
  · rw [carregarHistoricoResume_failure P res w hfail]
    have hinv2 : ((({ w with historicoBody := w.historicoBody.map (fun _ =>
        "<tr><td colspan='5'>Nenhum registro.</td></tr>".toList) } : World).glicemiaChart = none ∧
        ({ w with historicoBody := w.historicoBody.map (fun _ =>
        "<tr><td colspan='5'>Nenhum registro.</td></tr>".toList) } : World).charts = []) ∨
        ∃ c cfg, ({ w with historicoBody := w.historicoBody.map (fun _ =>
        "<tr><td colspan='5'>Nenhum registro.</td></tr>".toList) } : World).glicemiaChart = some c ∧
        ({ w with historicoBody := w.historicoBody.map (fun _ =>
        "<tr><td colspan='5'>Nenhum registro.</td></tr>".toList) } : World).charts = [(c, cfg)]) := hinv
    exact Or.inl (destroyChart_clears _ hinv2)
  · rcases res with ⟨ok, status, data, err⟩
    simp only [not_or, Bool.not_eq_false] at hfail
    obtain ⟨hok, harr⟩ := hfail
    have hok2 : ok = true := hok
    subst hok2
    cases data with
    | arr items =>
      rcases w with ⟨st, cpt, iv, nh, gc, ch, nc, bd, ti, tl, tc, pn, hb, gg, cl, cb, ci, rq, al⟩
      simp only [carregarHistoricoResume]
      split_ifs with h1 h2 h3 h4 h5
      · exact hinv
      · exact hinv
      · exact hinv
      · have hd := destroyChart_clears
          { storage := st, chatPollTimer := cpt, intervals := iv, nextHandle := nh,
            glicemiaChart := gc, charts := ch, nextChart := nc, bodyDark := bd, temaIcon := ti,
            temaLabel := tl, temaCheckbox := tc, pathname := pn,
            historicoBody := hb.map (fun _ =>
              ((registrosOf P items).map (renderRegistro P)).flatten),
            graficoGlicemia := gg, chartLibrary := cl, chatBox := cb, chatInput := ci,
            requests := rq, alerts := al } hinv
        exact Or.inl hd
      · have hd := destroyChart_clears
          { storage := st, chatPollTimer := cpt, intervals := iv, nextHandle := nh,
            glicemiaChart := gc, charts := ch, nextChart := nc, bodyDark := bd, temaIcon := ti,
            temaLabel := tl, temaCheckbox := tc, pathname := pn,
            historicoBody := hb.map (fun _ =>
              ((registrosOf P items).map (renderRegistro P)).flatten),
            graficoGlicemia := gg, chartLibrary := cl, chatBox := cb, chatInput := ci,
            requests := rq, alerts := al } hinv
        simp only [hd.2, List.nil_append]
        exact Or.inr ⟨_, _, rfl, rfl⟩
      · exact hinv
    | undefined => simp [JsValue.isArray] at harr
    | null => simp [JsValue.isArray] at harr
    | bool b => simp [JsValue.isArray] at harr
    | num n => simp [JsValue.isArray] at harr
    | str s => simp [JsValue.isArray] at harr
    | obj fields => simp [JsValue.isArray] at harr

/-- The invariant of the chart state: no instance and a `null` handle, or one
instance, which the handle names. -/
theorem historico_invariant (P : Platform) (w : World) (h : HistoricoReachable P w) :
    (w.glicemiaChart = none ∧ w.charts = []) ∨
      ∃ c cfg, w.glicemiaChart = some c ∧ w.charts = [(c, cfg)] := by
  induction h with
  | init w hHandle hNone => exact Or.inl ⟨hHandle, hNone⟩
  | call w _ ih => exact ih
  | resume w res _ ih => exact carregarHistoricoResume_chart P res w ih

/-- C12: in every state reachable by executions of `carregarHistorico`, in any
interleaving at the `await` and with any results, at most one chart instance
is alive and `_glicemiaChart` names it (and is `null` when there is none);
destroying leaves no instance, so a creation always starts from none; a failed
fetch or a payload that is not an array leaves no instance and a `null`
handle; and whatever the result, at most one instance is alive afterwards. -/
theorem historico_single_chart (P : Platform) (w : World) (h : HistoricoReachable P w) :
    w.charts.length ≤ 1 ∧
    (∀ ch ∈ w.charts, w.glicemiaChart = some ch.1) ∧
    (w.charts = [] → w.glicemiaChart = none) ∧
    (destroyChart w).charts = [] ∧
    (∀ res : ApiResult, res.ok = false ∨ res.data.isArray = false →
      (carregarHistoricoResume P res w).world.charts = [] ∧
      (carregarHistoricoResume P res w).world.glicemiaChart = none) ∧
    (∀ res : ApiResult, (carregarHistoricoResume P res w).world.charts.length ≤ 1) := by
  have hinv := historico_invariant P w h
  refine ⟨?_, ?_, ?_, (destroyChart_clears w hinv).2, ?_, ?_⟩
  · rcases hinv with ⟨_, h2⟩ | ⟨c, cfg, _, h2⟩ <;> simp [h2]
  · intro ch hch
    rcases hinv with ⟨_, h2⟩ | ⟨c, cfg, h1, h2⟩
    · simp [h2] at hch
    · simp only [h2, List.mem_singleton] at hch
      rw [h1, hch]
  · intro hnil
    rcases hinv with ⟨h1, _⟩ | ⟨c, cfg, _, h2⟩
    · exact h1
    · rw [h2] at hnil
      exact absurd hnil (by simp)
  · intro res hfail
    rw [carregarHistoricoResume_failure P res w hfail]
    have := destroyChart_clears ({ w with historicoBody := w.historicoBody.map (fun _ =>
        "<tr><td colspan='5'>Nenhum registro.</td></tr>".toList) } : World) hinv
    exact ⟨this.2, this.1⟩
  · intro res
    rcases historico_invariant P _ (HistoricoReachable.resume w res h) with
      ⟨_, h2⟩ | ⟨c, cfg, _, h2⟩ <;> simp [h2]

/-- C12 (witness): the example page after one successful fetch. -/
theorem historico_single_chart_witness :
    (carregarHistoricoResume examplePlatform
        { ok := true, status := 200, data := .arr [recordJan1, recordJan2], error := none }
        emptyPage).world.charts.length ≤ 1 :=
  (historico_single_chart examplePlatform _
    (HistoricoReachable.resume emptyPage
      { ok := true, status := 200, data := .arr [recordJan1, recordJan2], error := none }
      (HistoricoReachable.init emptyPage rfl rfl))).1

/-- C14 (the code at the failing input): with a successful status and a
payload that is `null`, an object or a string, `carregarChat` reaches
`res.data.map` and throws a `TypeError`, as it does on the example page for a
200 response with an empty body; `carregarHistorico` tests `Array.isArray`
first and completes without an exception for every payload that is not an
array. -/
theorem carregarChat_non_array :
    (∀ (P : Platform) (w : World) (status : Nat),
      (carregarChatResume P { ok := true, status := status, data := .null, error := none } w).thrown
        = some JsError.typeError) ∧
    (∀ (P : Platform) (w : World) (status : Nat) (fields : List (JsString × JsValue)),
      (carregarChatResume P
        { ok := true, status := status, data := .obj fields, error := none } w).thrown
        = some JsError.typeError) ∧
    (∀ (P : Platform) (w : World) (status : Nat) (text : JsString),
      (carregarChatResume P
        { ok := true, status := status, data := .str text, error := none } w).thrown
        = some JsError.typeError) ∧
    (carregarChat (fun _ _ => .response 200 (some [])) utcPlatform emptyPage).thrown
      = some JsError.typeError ∧
    (∀ (P : Platform) (w : World) (res : ApiResult), res.data.isArray = false →
      (carregarHistoricoResume P res w).thrown = none) := by
  refine ⟨fun _ _ _ => rfl, fun _ _ _ _ => rfl, fun _ _ _ _ => rfl, rfl, ?_⟩
  intro P w res h
  rw [carregarHistoricoResume_failure P res w (Or.inr h)]

theorem carregarHistoricoBegin_posts (w : World) :
    (carregarHistoricoBegin w).requests.filter isPost = w.requests.filter isPost := by
  simp only [carregarHistoricoBegin, List.filter_append, List.filter_cons, isPost_apiRequest,
    List.filter_nil]
  have hd : decide ("GET".toList = "POST".toList) = false := by decide
  rw [hd]
  simp

/-- C13 (amended): when `parseFloat` of the value text (first comma read as a
point) is `NaN` or below zero, `salvarRegistro` shows the invalid-value alert
and returns with no request sent and nothing else changed; when it is a number
not below zero, the only `POST` added is the one to `/api/record` carrying
that number. -/
theorem salvarRegistro_validation (T : Transport) (P : Platform) (form : RegistroForm)
    (w : World) :
    ((valorOf form).isNaN = true ∨ (valorOf form).ltZero = true →
      salvarRegistro T P form w =
        { completion :=
            { world := { w with alerts := w.alerts ++ ["Valor de glicemia inválido!".toList] }
              thrown := none }
          form := form } ∧
      (salvarRegistro T P form w).completion.world.requests = w.requests) ∧
    ((valorOf form).isNaN = false ∧ (valorOf form).ltZero = false →
      (registroRequest w form).url = API_BASE_URL ++ "/api/record".toList ∧
      (registroRequest w form).method = "POST".toList ∧
      (registroRequest w form).body = some (.registroOf (payloadOf form)) ∧
      (salvarRegistro T P form w).completion.world.requests.filter isPost
        = w.requests.filter isPost ++ [registroRequest w form]) := by
  constructor
  · intro h
    have hc : ((valorOf form).isNaN || (valorOf form).ltZero) = true := by
      rcases h with h | h <;> simp [h]
    have e : salvarRegistro T P form w =
        { completion :=
            { world := { w with alerts := w.alerts ++ ["Valor de glicemia inválido!".toList] }
              thrown := none }
          form := form } := by
      unfold salvarRegistro
      simp only [hc, if_true]
    exact ⟨e, by rw [e]⟩
  · intro h
    have hc : ((valorOf form).isNaN || (valorOf form).ltZero) = false := by
      simp [h.1, h.2]
    have hpost : isPost (registroRequest w form) = true := by
      unfold registroRequest
      rw [isPost_apiRequest]
      decide
    have hsent : ({ w with requests := w.requests ++ [registroRequest w form] } : World
        ).requests.filter isPost = w.requests.filter isPost ++ [registroRequest w form] := by
      simp only [List.filter_append, List.filter_cons, hpost, if_true, List.filter_nil]
    refine ⟨rfl, rfl, rfl, ?_⟩
    unfold salvarRegistro
    simp only [hc, Bool.false_eq_true, if_false, apiFetch]
    split_ifs
    · split
      · rw [carregarHistoricoBegin_posts]
        exact hsent
      · exact hsent
    · exact hsent

/-- C13 (counterexample): the text `12abc` is not a number, `parseFloat` reads
it as 12, and the request to `/api/record` is sent. -/
theorem salvarRegistro_counterexample :
    valorOf form12abc = .decimal false 12 0 ∧
    (salvarRegistro (fun _ _ => .rejected JsError.other) utcPlatform form12abc
        emptyPage).completion.world.requests.map (fun r => (r.url, r.method))
      = [("http://127.0.0.1:5000/api/record".toList, "POST".toList)] := by
  decide

end ClarityHealth
